import Mathlib

/-!
Verification development for the vg-renderer core (`src/vg.cpp`): the
draw-command assembly and batching subsystem, the clip recorder, the
command-list interpreter and the shape cache.

Floats of the source are embedded as exact rationals; the C casts
`(uint8_t)`/`(uint16_t)` of a non-negative float are embedded as floor
followed by the corresponding modulus.  External collaborator libraries
(`bx`, the stroker, the font system) appear as parameters or as their
documented arithmetic meaning.
-/

namespace VG

/-- Embedding of `bx::clamp<float>(x, lo, hi)`. -/
def clampQ (x lo hi : ℚ) : ℚ := min (max x lo) hi

/-- Embedding of `bx::square(x)`. -/
def squareQ (x : ℚ) : ℚ := x * x

/-- Embedding of the C cast `(uint8_t)` applied to a non-negative float value. -/
def toByte (q : ℚ) : Fin 256 := ⟨(Int.floor q).toNat % 256, Nat.mod_lt _ (by norm_num)⟩

/-- Embedding of the C cast `(uint16_t)` applied to a non-negative float value. -/
def toU16 (q : ℚ) : ℕ := (Int.floor q).toNat % 65536

/-- Modelled from the spec: a `vg::Color` is a packed 32-bit RGBA value;
`colorGetAlpha`/`colorSetAlpha` (declared in `vg.h`, which is not under
`src/`) access the 8-bit alpha channel and leave the RGB payload alone.
We keep the RGB payload opaque and the alpha channel explicit. -/
structure Color where
  rgb : ℕ
  a : Fin 256
deriving DecidableEq, Repr

/-- Modelled from the spec: `colorGetAlpha` returns the 8-bit alpha channel. -/
def colorGetAlpha (c : Color) : ℕ := c.a.val

/-- Modelled from the spec: `colorSetAlpha` replaces the alpha channel. -/
def colorSetAlpha (c : Color) (alpha : Fin 256) : Color := { c with a := alpha }

/-- A 2x3 affine transform `(a,b,c,d,e,f)`, column-major as in `State::m_TransformMtx`. -/
structure Mtx where
  a : ℚ
  b : ℚ
  c : ℚ
  d : ℚ
  e : ℚ
  f : ℚ
deriving DecidableEq, Repr

/-- The identity transform (`ctxTransformIdentity`, vg.cpp:3175). -/
def mtxIdentity : Mtx := ⟨1, 0, 0, 1, 0, 0⟩

/-- Modelled from the spec: `vgutil::transformPos2D` (in `vgutil.h`, not under
`src/`) applies the affine transform to a point. -/
def transformPos2D (x y : ℚ) (m : Mtx) : ℚ × ℚ :=
  (m.a * x + m.c * y + m.e, m.b * x + m.d * y + m.f)

/-- Modelled from the spec: `vgutil::transformVec2D` applies only the linear
part of the transform to a direction vector. -/
def transformVec2D (x y : ℚ) (m : Mtx) : ℚ × ℚ :=
  (m.a * x + m.c * y, m.b * x + m.d * y)

/-- An axis-aligned rectangle `{x, y, w, h}` as stored in `State::m_ScissorRect`. -/
structure Rect where
  x : ℚ
  y : ℚ
  w : ℚ
  h : ℚ
deriving DecidableEq, Repr

/-- Embedding of `ctxIntersectScissor` (vg.cpp:3146-3173): intersect the
transformed input rect with the existing scissor, store the clamped result and
report whether both sides of the new rect are at least one pixel. -/
def ctxIntersectScissor (m : Mtx) (scissor : Rect) (x y w h : ℚ) : Rect × Bool :=
  let pos := transformPos2D x y m
  let size := transformVec2D w h m
  let minx := max pos.1 scissor.x
  let miny := max pos.2 scissor.y
  let maxx := min (pos.1 + size.1) (scissor.x + scissor.w)
  let maxy := min (pos.2 + size.2) (scissor.y + scissor.h)
  let newRectWidth := max 0 (maxx - minx)
  let newRectHeight := max 0 (maxy - miny)
  (⟨minx, miny, newRectWidth, newRectHeight⟩,
   decide (1 ≤ newRectWidth) && decide (1 ≤ newRectHeight))

/-- Embedding of the scaled stroke width computation shared by the stroke entry
points (vg.cpp:2557, 2739): fixed-width strokes use the width verbatim,
otherwise the width is scaled by `avgScale` and clamped to `[0, 200]`. -/
def scaledStrokeWidthOf (fixedWidth : Bool) (width avgScale : ℚ) : ℚ :=
  if fixedWidth then width else clampQ (width * avgScale) 0 200

/-- Embedding of `isThin` (vg.cpp:2558, 2740): the scaled stroke width is at or
below the fringe width. -/
def strokeIsThin (scaledStrokeWidth fringeWidth : ℚ) : Bool :=
  scaledStrokeWidth ≤ fringeWidth

/-- Embedding of the `alphaScale` computation of `ctxStrokePathColor`
(vg.cpp:2560): `!isThin ? globalAlpha : globalAlpha * square(clamp(w, 0, fringe))`. -/
def strokeAlphaScaleColor (globalAlpha scaledStrokeWidth fringeWidth : ℚ) : ℚ :=
  if strokeIsThin scaledStrokeWidth fringeWidth
  then globalAlpha * squareQ (clampQ scaledStrokeWidth 0 fringeWidth)
  else globalAlpha

/-- Embedding of the `alphaScale` computation of `ctxStrokePathImagePattern`
(vg.cpp:2742): `isThin ? globalAlpha : globalAlpha * square(clamp(w, 0, fringe))`. -/
def strokeAlphaScaleImagePattern (globalAlpha scaledStrokeWidth fringeWidth : ℚ) : ℚ :=
  if strokeIsThin scaledStrokeWidth fringeWidth
  then globalAlpha
  else globalAlpha * squareQ (clampQ scaledStrokeWidth 0 fringeWidth)

/-- Embedding of the stroker width actually used (vg.cpp:2577):
`isThin ? fringeWidth : scaledStrokeWidth`. -/
def strokeWidthUsed (scaledStrokeWidth fringeWidth : ℚ) : ℚ :=
  if strokeIsThin scaledStrokeWidth fringeWidth then fringeWidth else scaledStrokeWidth

/-- The per-call outputs of `ctxStrokePathColor` that precede tessellation:
the stroker width, the effective color and whether the call emits geometry. -/
structure StrokeColorOutcome where
  strokeWidth : ℚ
  col : Color
  emitted : Bool
deriving DecidableEq, Repr

/-- Embedding of the head of `ctxStrokePathColor` (vg.cpp:2542-2577) outside a
clip block and with no active shape cache: compute the scaled width, the alpha
scale and the effective color; a fully transparent effective color
short-circuits the call. -/
def ctxStrokePathColorHead (globalAlpha fringeWidth : ℚ) (color : Color)
    (width avgScale : ℚ) (fixedWidth : Bool) : StrokeColorOutcome :=
  let sw := scaledStrokeWidthOf fixedWidth width avgScale
  let alphaScale := strokeAlphaScaleColor globalAlpha sw fringeWidth
  let col := colorSetAlpha color (toByte (alphaScale * (colorGetAlpha color : ℚ)))
  { strokeWidth := strokeWidthUsed sw fringeWidth
    col := col
    emitted := decide (colorGetAlpha col ≠ 0) }

/-- The alpha byte asserted by the claim for thin strokes:
`base_alpha * (scaledWidth / fringe) ^ 2` with `base_alpha = globalAlpha * colorAlpha`. -/
def claimedThinStrokeAlphaByte (globalAlpha fringeWidth scaledStrokeWidth : ℚ)
    (colorAlpha : ℕ) : ℕ :=
  toByte (globalAlpha * (colorAlpha : ℚ) * squareQ (scaledStrokeWidth / fringeWidth))

/-- The drawing state fields of `State` (vg.cpp Context::m_StateStack entry):
2x3 transform, scissor rect, global alpha and the derived scales. -/
structure VGState where
  transformMtx : Mtx
  scissorRect : Rect
  globalAlpha : ℚ
  avgScale : ℚ
  fontScale : ℚ
deriving DecidableEq, Repr

/-- Embedding of `setGlobalAlpha` (vg.cpp:1187-1191): store the argument into
the current state, touching nothing else. -/
def setGlobalAlpha (s : VGState) (alpha : ℚ) : VGState :=
  { s with globalAlpha := alpha }

/-- Embedding of the effective fill color of `ctxFillPathColor` (vg.cpp:2207)
outside a clip block: alpha byte is the cast of `globalAlpha * colorAlpha`. -/
def fillEffectiveColor (s : VGState) (color : Color) : Color :=
  colorSetAlpha color (toByte (s.globalAlpha * (colorGetAlpha color : ℚ)))

/-! ### Sub-path handling of the fill and stroke entry points (claim C9)

`ctxFillPathColor` (vg.cpp:2236-2310) walks the path sub-paths: convex fills
`continue` past sub-paths with fewer than 3 vertices; concave fills `return`
from the whole function on such a sub-path; `ctxStrokePathColor`
(vg.cpp:2592-2596) walks sub-paths and skips those with fewer than 2 vertices.
The stroker itself is an external collaborator, abstracted by the `tess`
parameters below; meshes are kept as an opaque type. -/

/-- A `SubPath` record: first vertex index, vertex count, closed flag
(vg.cpp `SubPath`). -/
structure SubPath where
  firstVertexID : ℕ
  numVertices : ℕ
  isClosed : Bool
deriving DecidableEq, Repr

/-- The convex loop of `ctxFillPathColor` (vg.cpp:2236-2269): a sub-path with
fewer than 3 vertices is skipped via `continue`; every other sub-path is
tessellated and emitted. -/
def fillPathConvexMeshes {μ : Type} (tess : SubPath → μ) : List SubPath → List μ
  | [] => []
  | sp :: rest =>
    if sp.numVertices < 3 then fillPathConvexMeshes tess rest
    else tess sp :: fillPathConvexMeshes tess rest

/-- The contour-accumulation loop of the concave branch of `ctxFillPathColor`
(vg.cpp:2270-2281): a sub-path with fewer than 3 vertices makes the whole
function `return`, modelled by `none`; otherwise each sub-path is added as a
contour. -/
def concaveAddContours : List SubPath → List SubPath → Option (List SubPath)
  | [], acc => some acc
  | sp :: rest, acc =>
    if sp.numVertices < 3 then none
    else concaveAddContours rest (acc ++ [sp])

/-- The concave branch of `ctxFillPathColor` (vg.cpp:2270-2310): on an early
`return` no mesh is emitted at all (`strokerConcaveFillEnd` never runs);
otherwise the accumulated contours are tessellated together; a decomposition
failure (`tessEnd = none`) is a warning and emits nothing. -/
def fillPathConcaveMeshes {μ : Type} (tessEnd : List SubPath → Option μ)
    (subPaths : List SubPath) : List μ :=
  match concaveAddContours subPaths [] with
  | none => []
  | some contours =>
    match tessEnd contours with
    | some mesh => [mesh]
    | none => []

/-- The stroke loop of `ctxStrokePathColor` (vg.cpp:2592-2629): a sub-path with
fewer than 2 vertices is skipped via `continue`. -/
def strokePathMeshes {μ : Type} (tess : SubPath → μ) : List SubPath → List μ
  | [] => []
  | sp :: rest =>
    if sp.numVertices < 2 then strokePathMeshes tess rest
    else tess sp :: strokePathMeshes tess rest

/-! ### The draw-batch assembler state machine (claims C1 and C5)

The fragment of `Context` relevant to `allocDrawCommand`/`allocClipCommand`
(vg.cpp:4022-4120), the clip recorder (vg.cpp:2814-2854), the scissor
operations (vg.cpp:3112-3173) and the state stack (vg.cpp:3078-3110).
Vertex buffers are embedded by their `m_Count` fields, the scissor stack by
the scissor rect of each `State` entry. -/

/-- `ClipRule::Enum` (In / Out). -/
inductive ClipRule where
  | rIn : ClipRule
  | rOut : ClipRule
deriving DecidableEq, Repr

/-- The `~0u` marker used for `ClipState::m_FirstCmdID` when no clip is active. -/
def invalidCmdID : ℕ := 4294967295

/-- `ClipState` (first clip command id, count, rule). -/
structure ClipState where
  firstCmdID : ℕ
  numCmds : ℕ
  rule : ClipRule
deriving DecidableEq, Repr

/-- The `ClipState` installed at `begin` (vg.cpp:753-755). -/
def clipNone : ClipState := ⟨invalidCmdID, 0, ClipRule.rIn⟩

/-- `DrawCommand::Type::Enum`. -/
inductive DrawType where
  | textured : DrawType
  | colorGradient : DrawType
  | imagePattern : DrawType
  | clip : DrawType
deriving DecidableEq, Repr

/-- A `DrawCommand` record (vg.cpp `DrawCommand`): vertex/index ranges, batch
type, paint handle, scissor rect snapshot (as `uint16`) and clip state. -/
structure DrawCommandRec where
  vertexBufferID : ℕ
  firstVertexID : ℕ
  firstIndexID : ℕ
  numVertices : ℕ
  numIndices : ℕ
  type : DrawType
  handleID : ℕ
  scissorRect : ℕ × ℕ × ℕ × ℕ
  clipState : ClipState
deriving DecidableEq, Repr

/-- The `(uint16_t)` snapshot of a scissor rect taken when a draw command is
created (vg.cpp:4061-4064). -/
def castRect (r : Rect) : ℕ × ℕ × ℕ × ℕ := (toU16 r.x, toU16 r.y, toU16 r.w, toU16 r.h)

/-- The assembler fragment of `Context`: draw and clip command streams, the
force-new flags, the current `ClipState`, the clip-recording flag, the scissor
of each state-stack entry (top last), the vertex-buffer counts (active buffer
last) and the index-buffer count. -/
structure Ctx where
  drawCommands : List DrawCommandRec
  clipCommands : List DrawCommandRec
  forceNewDrawCommand : Bool
  forceNewClipCommand : Bool
  clipState : ClipState
  recordClipCommands : Bool
  scissorStack : List Rect
  vbCounts : List ℕ
  maxVBVertices : ℕ
  indexCount : ℕ
deriving DecidableEq, Repr

/-- The scissor rect of the current state (`getState(ctx)->m_ScissorRect`). -/
def currentScissor (ctx : Ctx) : Rect := ctx.scissorStack.getLastD ⟨0, 0, 0, 0⟩

/-- Replace the last element of a list. -/
def setLast (l : List ℕ) (v : ℕ) : List ℕ := l.dropLast ++ [v]

/-- Apply a function to the last element of a list. -/
def mapLast {α : Type} (g : α → α) (l : List α) : List α :=
  match l.getLast? with
  | some x => l.dropLast ++ [g x]
  | none => []

/-- Result of `allocVertices`: updated context, vertex buffer id, first vertex. -/
structure AllocV where
  ctx : Ctx
  vbID : ℕ
  firstVertexID : ℕ

/-- Embedding of `allocVertices` (vg.cpp:3984-4005): reserve from the active
vertex buffer; on overflow allocate a new buffer and set both force-new flags. -/
def allocVertices (ctx : Ctx) (numVertices : ℕ) : AllocV :=
  let cnt := ctx.vbCounts.getLastD 0
  if ctx.maxVBVertices < cnt + numVertices then
    let ctxNew := { ctx with vbCounts := ctx.vbCounts ++ [numVertices],
                             forceNewDrawCommand := true, forceNewClipCommand := true }
    { ctx := ctxNew, vbID := ctx.vbCounts.length, firstVertexID := 0 }
  else
    let ctxNew := { ctx with vbCounts := setLast ctx.vbCounts (cnt + numVertices) }
    { ctx := ctxNew, vbID := ctx.vbCounts.length - 1, firstVertexID := cnt }

/-- Result of `allocDrawCommand`: updated context, whether the previous command
was merged into, and the ids reserved for this request. -/
structure AllocDC where
  ctx : Ctx
  merged : Bool
  vbID : ℕ
  firstVertexID : ℕ
  firstIndexID : ℕ

/-- Embedding of `allocDrawCommand` (vg.cpp:4022-4070): reserve vertices and
indices; if the force-new flag is clear and the previous draw command matches
on type and handle, return the previous command (merge); otherwise push a
fresh command with zero counts copying the current scissor and `ClipState`. -/
def allocDrawCommand (ctx : Ctx) (numVertices numIndices : ℕ)
    (type : DrawType) (handle : ℕ) : AllocDC :=
  let av := allocVertices ctx numVertices
  let firstIndexID := av.ctx.indexCount
  let ctx2 := { av.ctx with indexCount := av.ctx.indexCount + numIndices }
  let canMerge : Bool :=
    !ctx2.forceNewDrawCommand &&
      (match ctx2.drawCommands.getLast? with
       | some prev => decide (prev.type = type) && decide (prev.handleID = handle)
       | none => false)
  if canMerge then
    { ctx := ctx2, merged := true, vbID := av.vbID,
      firstVertexID := av.firstVertexID, firstIndexID := firstIndexID }
  else
    let cmd : DrawCommandRec :=
      { vertexBufferID := av.vbID, firstVertexID := av.firstVertexID,
        firstIndexID := firstIndexID, numVertices := 0, numIndices := 0,
        type := type, handleID := handle,
        scissorRect := castRect (currentScissor ctx2), clipState := ctx2.clipState }
    let ctx3 := { ctx2 with drawCommands := ctx2.drawCommands ++ [cmd],
                            forceNewDrawCommand := false }
    { ctx := ctx3, merged := false, vbID := av.vbID,
      firstVertexID := av.firstVertexID, firstIndexID := firstIndexID }

/-- Embedding of `allocClipCommand` (vg.cpp:4072-4120): like `allocDrawCommand`
but always of type `Clip` with no handle; consecutive clip meshes always merge
unless the force-new-clip flag is set. -/
def allocClipCommand (ctx : Ctx) (numVertices numIndices : ℕ) : AllocDC :=
  let av := allocVertices ctx numVertices
  let firstIndexID := av.ctx.indexCount
  let ctx2 := { av.ctx with indexCount := av.ctx.indexCount + numIndices }
  let canMerge : Bool := !ctx2.forceNewClipCommand && !ctx2.clipCommands.isEmpty
  if canMerge then
    { ctx := ctx2, merged := true, vbID := av.vbID,
      firstVertexID := av.firstVertexID, firstIndexID := firstIndexID }
  else
    let cmd : DrawCommandRec :=
      { vertexBufferID := av.vbID, firstVertexID := av.firstVertexID,
        firstIndexID := firstIndexID, numVertices := 0, numIndices := 0,
        type := DrawType.clip, handleID := 65535,
        scissorRect := castRect (currentScissor ctx2),
        clipState := ⟨invalidCmdID, 0, ClipRule.rIn⟩ }
    let ctx3 := { ctx2 with clipCommands := ctx2.clipCommands ++ [cmd],
                            forceNewClipCommand := false }
    { ctx := ctx3, merged := false, vbID := av.vbID,
      firstVertexID := av.firstVertexID, firstIndexID := firstIndexID }

/-- Add a mesh's counts to a draw command, as the `createDrawCommand_*` callers
do after `allocDrawCommand` (vg.cpp:3905-3906); the returned command is always
the last of its stream. -/
def bumpCounts (numVertices numIndices : ℕ) (cmd : DrawCommandRec) : DrawCommandRec :=
  { cmd with numVertices := cmd.numVertices + numVertices,
             numIndices := cmd.numIndices + numIndices }

/-- Embedding of `createDrawCommand_VertexColor` / `_ColorGradient` /
`_ImagePattern` (vg.cpp:3870-3959) restricted to command bookkeeping: allocate
the draw command and grow its counts by the mesh size. -/
def createDrawCommandMesh (ctx : Ctx) (type : DrawType) (handle : ℕ)
    (numVertices numIndices : ℕ) : Ctx :=
  let r := allocDrawCommand ctx numVertices numIndices type handle
  { r.ctx with drawCommands := mapLast (bumpCounts numVertices numIndices) r.ctx.drawCommands }

/-- Embedding of `createDrawCommand_Clip` (vg.cpp:3961-3980) restricted to
command bookkeeping. -/
def createClipCommandMesh (ctx : Ctx) (numVertices numIndices : ℕ) : Ctx :=
  let r := allocClipCommand ctx numVertices numIndices
  { r.ctx with clipCommands := mapLast (bumpCounts numVertices numIndices) r.ctx.clipCommands }

/-- The operations of the public API that touch the assembler fragment.  The
scissor operations (`ctxSetScissor`, `ctxIntersectScissor`, `ctxResetScissor`)
all replace the current scissor with a computed rect and set both force-new
flags (vg.cpp:3118-3119, 3142-3143, 3169-3170); `scissorChange` carries the
computed rect. -/
inductive Op where
  | draw (type : DrawType) (handle numVertices numIndices : ℕ)
  | clipMesh (numVertices numIndices : ℕ)
  | beginClip (rule : ClipRule)
  | endClip : Op
  | resetClip : Op
  | scissorChange (r : Rect)
  | pushState : Op
  | popState : Op
deriving DecidableEq, Repr

/-- One step of the assembler state machine.  Each guard mirrors the
corresponding `VG_CHECK` precondition of the public API: a fill/stroke outside
a clip block reaches `createDrawCommand_*`, one inside reaches
`createDrawCommand_Clip` (vg.cpp:2264-2268, 2624-2628); `ctxBeginClip`
requires not recording, `ctxEndClip` requires recording, `ctxResetClip`
requires not recording; `ctxPopState` requires a non-trivial stack. -/
def step (ctx : Ctx) : Op → Ctx
  | Op.draw type handle nv ni =>
    if ctx.recordClipCommands then ctx else createDrawCommandMesh ctx type handle nv ni
  | Op.clipMesh nv ni =>
    if ctx.recordClipCommands then createClipCommandMesh ctx nv ni else ctx
  | Op.beginClip rule =>
    if ctx.recordClipCommands then ctx
    else
      { ctx with clipState := ⟨ctx.clipCommands.length, 0, rule⟩,
                 recordClipCommands := true, forceNewClipCommand := true }
  | Op.endClip =>
    if ctx.recordClipCommands then
      { ctx with clipState := ⟨ctx.clipState.firstCmdID,
                               ctx.clipCommands.length - ctx.clipState.firstCmdID,
                               ctx.clipState.rule⟩,
                 recordClipCommands := false, forceNewDrawCommand := true }
    else ctx
  | Op.resetClip =>
    if ctx.recordClipCommands then ctx
    else if ctx.clipState.firstCmdID ≠ invalidCmdID then
      { ctx with clipState := ⟨invalidCmdID, 0, ctx.clipState.rule⟩,
                 forceNewDrawCommand := true }
    else ctx
  | Op.scissorChange r =>
    { ctx with scissorStack := ctx.scissorStack.dropLast ++ [r],
               forceNewDrawCommand := true, forceNewClipCommand := true }
  | Op.pushState =>
    { ctx with scissorStack := ctx.scissorStack ++ [currentScissor ctx] }
  | Op.popState =>
    if ctx.scissorStack.length ≤ 1 then ctx
    else
      let popped := ctx.scissorStack.dropLast
      let newScissor := popped.getLastD ⟨0, 0, 0, 0⟩
      match ctx.drawCommands.getLast? with
      | none => { ctx with scissorStack := popped }
      | some lastCmd =>
        if lastCmd.scissorRect ≠ castRect newScissor then
          { ctx with scissorStack := popped,
                     forceNewDrawCommand := true, forceNewClipCommand := true }
        else
          { ctx with scissorStack := popped }

/-- Run a sequence of operations. -/
def runOps (ctx : Ctx) (ops : List Op) : Ctx := ops.foldl step ctx

/-- The assembler context right after `begin` (vg.cpp:724-759): empty command
streams, both force flags set, no clip state, one state-stack entry holding the
canvas scissor, one empty vertex buffer, an empty index buffer. -/
def initCtx (canvas : Rect) (maxVB : ℕ) : Ctx :=
  { drawCommands := [], clipCommands := [],
    forceNewDrawCommand := true, forceNewClipCommand := true,
    clipState := clipNone, recordClipCommands := false,
    scissorStack := [canvas], vbCounts := [0],
    maxVBVertices := maxVB, indexCount := 0 }

/-! ### Handle remapping during command-list playback (claim C3)

`ctxSubmitCommandList` captures `firstGradientID`/`firstImagePatternID` from
`m_NextGradientID`/`m_NextImagePatternID` before walking the bytecode
(vg.cpp:3413-3414) and resolves every recorded paint handle against those
bases (vg.cpp:3527, 3536, 3552, 3562); `Create*Gradient`/`CreateImagePattern`
commands executed during the walk advance the counters (vg.cpp:2862, 3034). -/

/-- A recorded paint handle `{ id, flags }`; the only flag is
`HandleFlags::LocalHandle` (vg.cpp:77). -/
structure RecHandle where
  id : ℕ
  flagLocal : Bool
deriving DecidableEq, Repr

/-- The resolution applied by the interpreter (vg.cpp:3527 etc.):
`{ isLocal(flags) ? (uint16_t)(handle + firstID) : handle, 0 }`. -/
def resolveHandle (firstID : ℕ) (h : RecHandle) : ℕ :=
  if h.flagLocal then (h.id + firstID) % 65536 else h.id

/-- The paint-relevant part of the interpreter state: the context's
next-gradient / next-image-pattern counters and their caps. -/
structure PaintCtx where
  nextGradientID : ℕ
  nextImagePatternID : ℕ
  maxGradients : ℕ
  maxImagePatterns : ℕ
deriving DecidableEq, Repr

/-- Embedding of `ctxCreateLinearGradient` / `ctxCreateBoxGradient` /
`ctxCreateRadialGradient` (vg.cpp:2856-2862 etc.) restricted to the counter:
beyond the cap the call returns an invalid handle and allocates nothing. -/
def createGradientStep (c : PaintCtx) : PaintCtx :=
  if c.maxGradients ≤ c.nextGradientID then c
  else { c with nextGradientID := c.nextGradientID + 1 }

/-- Embedding of `ctxCreateImagePattern` (vg.cpp:3028-3034) restricted to the
counter. -/
def createImagePatternStep (c : PaintCtx) : PaintCtx :=
  if c.maxImagePatterns ≤ c.nextImagePatternID then c
  else { c with nextImagePatternID := c.nextImagePatternID + 1 }

/-- The bytecode commands relevant to paint-handle resolution:
`Create*Gradient` / `CreateImagePattern`, the fill/stroke commands carrying a
recorded gradient or pattern handle, and everything else. -/
inductive PCmd where
  | createGradient : PCmd
  | createImagePattern : PCmd
  | useGradient (h : RecHandle)
  | useImagePattern (h : RecHandle)
  | other : PCmd
deriving DecidableEq, Repr

/-- A paint handle as resolved and passed to `ctxFillPath*` / `ctxStrokePath*`. -/
inductive ResolvedPaint where
  | gradient (id : ℕ)
  | imagePattern (id : ℕ)
deriving DecidableEq, Repr

/-- The interpreter loop of `ctxSubmitCommandList` restricted to paint-handle
traffic: resolve use commands against the captured bases, let create commands
advance the counters, ignore the rest. -/
def playPaintCmds (firstGradientID firstImagePatternID : ℕ) :
    PaintCtx → List PCmd → PaintCtx × List ResolvedPaint
  | c, [] => (c, [])
  | c, PCmd.createGradient :: rest =>
    playPaintCmds firstGradientID firstImagePatternID (createGradientStep c) rest
  | c, PCmd.createImagePattern :: rest =>
    playPaintCmds firstGradientID firstImagePatternID (createImagePatternStep c) rest
  | c, PCmd.useGradient h :: rest =>
    let r := playPaintCmds firstGradientID firstImagePatternID c rest
    (r.1, ResolvedPaint.gradient (resolveHandle firstGradientID h) :: r.2)
  | c, PCmd.useImagePattern h :: rest =>
    let r := playPaintCmds firstGradientID firstImagePatternID c rest
    (r.1, ResolvedPaint.imagePattern (resolveHandle firstImagePatternID h) :: r.2)
  | c, PCmd.other :: rest =>
    playPaintCmds firstGradientID firstImagePatternID c rest

/-- Embedding of the paint-handle traffic of `ctxSubmitCommandList`
(vg.cpp:3413-3414 then the loop): the bases are the `(uint16_t)` casts of the
counters at call entry. -/
def submitPaintCmds (c : PaintCtx) (cmds : List PCmd) : PaintCtx × List ResolvedPaint :=
  playPaintCmds (c.nextGradientID % 65536) (c.nextImagePatternID % 65536) c cmds

/-- The resolution the claim describes, applied pointwise to the use commands
of a list: local id `k` maps to `k + base`, non-local ids pass through. -/
def claimedResolution (gradientBase imagePatternBase : ℕ) (cmds : List PCmd) :
    List ResolvedPaint :=
  cmds.filterMap fun cmd =>
    match cmd with
    | PCmd.useGradient h =>
      some (ResolvedPaint.gradient (if h.flagLocal then (h.id + gradientBase) % 65536 else h.id))
    | PCmd.useImagePattern h =>
      some (ResolvedPaint.imagePattern (if h.flagLocal then (h.id + imagePatternBase) % 65536 else h.id))
    | _ => none

/-! ### Recursion depth of nested command-list submission (claim C4)

`ctxSubmitCommandList` (vg.cpp:3377-3386, 3711-3737) checks
`m_SubmitCmdListRecursionDepth` against `maxCommandListDepth` on entry,
returning immediately when at or over the limit; otherwise it increments the
counter, walks the bytecode (recursing into `SubmitCommandList` commands — a
nested handle is looked up in the context's command-list table, abstracted
here by a total environment), and decrements the counter on every exit path.
The walk is embedded with an explicit fuel argument; any fuel above the
remaining depth budget computes the same result (proved below), so the fuel is
an artifact of the embedding, not of the source. -/

/-- The context fragment for the recursion claim: the depth counter and the
sequence of draw work performed (as opaque tokens). -/
structure NCtx where
  depth : ℕ
  emitted : List ℕ
deriving DecidableEq, Repr

/-- Bytecode commands for the recursion claim: draw work or a nested
`SubmitCommandList`. -/
inductive NCmd where
  | draw (token : ℕ)
  | submit (listId : ℕ)
deriving DecidableEq, Repr

mutual

/-- Fuel-indexed embedding of `ctxSubmitCommandList`'s recursion skeleton
(vg.cpp:3377-3386, 3711-3737): at or over the depth limit return immediately
without touching anything; otherwise increment the depth, play the bytecode,
and decrement the depth.  The fuel only bounds the embedding's recursion; any
fuel above the remaining depth budget gives the same result. -/
def submitCLF (env : ℕ → List NCmd) (maxDepth : ℕ) : ℕ → NCtx → ℕ → NCtx
  | fuel, c, listId =>
    if maxDepth ≤ c.depth then c
    else
      match fuel with
      | 0 => c
      | fuel + 1 =>
        let c1 := playNList env maxDepth fuel { c with depth := c.depth + 1 } (env listId)
        { c1 with depth := c1.depth - 1 }
  termination_by fuel _ _ => (fuel, 0)

/-- The bytecode walk of `ctxSubmitCommandList` (vg.cpp:3436-3725) restricted
to the recursion claim: draw work appends a token; a nested
`SubmitCommandList` command re-enters `submitCLF` (vg.cpp:3711-3718). -/
def playNList (env : ℕ → List NCmd) (maxDepth : ℕ) : ℕ → NCtx → List NCmd → NCtx
  | _, c, [] => c
  | fuel, c, NCmd.draw t :: rest =>
    playNList env maxDepth fuel { c with emitted := c.emitted ++ [t] } rest
  | fuel, c, NCmd.submit lid :: rest =>
    playNList env maxDepth fuel (submitCLF env maxDepth fuel c lid) rest
  termination_by fuel _ cmds => (fuel, cmds.length + 1)

end

/-- Embedding of `submitCommandList` at the recursion level: `maxDepth + 1`
fuel always exceeds the remaining depth budget. -/
def ctxSubmitCommandListN (env : ℕ → List NCmd) (maxDepth : ℕ)
    (c : NCtx) (listId : ℕ) : NCtx :=
  submitCLF env maxDepth (maxDepth + 1) c listId

/-! ### The shape cache (claim C2)

The fragment of the command-list interpreter relevant to the shape cache,
with `VG_CONFIG_ENABLE_SHAPE_CACHING` and
`VG_CONFIG_COMMAND_LIST_PRESERVE_STATE` configured on (spec sections 4.7,
4.8): path-construction commands, the transform command family, and convex
color fills.  The stroker and the square-root-based average-scale computation
are external, abstracted by a `StrokerModel`.  Mesh submissions are compared
as the argument tuples handed to `createDrawCommand_VertexColor`. -/

/-- A 2D point. -/
abbrev Pt := ℚ × ℚ

/-- Apply an affine transform to a point. -/
def applyMtx (m : Mtx) (p : Pt) : Pt := transformPos2D p.1 p.2 m

/-- Determinant of the linear part of an affine transform. -/
def mtxDet (m : Mtx) : ℚ := m.a * m.d - m.b * m.c

/-- Modelled from the spec: `vgutil::invertMatrix3` (in `vgutil.h`, not under
`src/`) inverts the affine transform; cached mesh positions are stored in the
recording-time local frame by applying this inverse (spec section 4.8). -/
def mtxInvert (m : Mtx) : Mtx :=
  let det := mtxDet m
  ⟨m.d / det, -m.b / det, -m.c / det, m.a / det,
   (m.c * m.f - m.d * m.e) / det, (m.b * m.e - m.a * m.f) / det⟩

/-- A tessellated mesh as returned by the stroker (`Mesh`, with the color
buffer present only for the anti-aliased variants). -/
structure CMesh where
  pos : List Pt
  colors : Option (List Color)
  indices : List ℕ
deriving DecidableEq, Repr

/-- The external collaborators of the shape-cache fragment: the stroker's
convex fill (with and without AA), the average-scale function of
`updateState` (vg.cpp:3746-3759, square roots kept abstract) and the font
atlas image handle used by `createDrawCommand_VertexColor`. -/
structure StrokerModel where
  convexFill : Bool → List Pt → Color → CMesh
  avgScaleOf : Mtx → ℚ
  fontAtlasImage : ℕ

/-- The interpreter state of the fragment: current transform, the
context-global path (sub-paths in local coordinates) and the cached
transformed path (`m_TransformedVertices` guarded by `m_PathTransformed`). -/
structure C2State where
  mtx : Mtx
  path : List (List Pt)
  pathXf : Option (List (List Pt))
deriving DecidableEq, Repr

/-- Embedding of `transformPath` (vg.cpp:3772-3790): reuse the cached
transformed vertices if present, otherwise transform the path by the current
matrix and cache the result. -/
def transformPathM (st : C2State) : List (List Pt) × C2State :=
  match st.pathXf with
  | some t => (t, st)
  | none =>
    let t := st.path.map (List.map (applyMtx st.mtx))
    (t, { st with pathXf := some t })

/-- The bytecode commands of the shape-cache fragment. -/
inductive CLCmd where
  | beginPath : CLCmd
  | addSubPath (pts : List Pt)
  | setTransform (m : Mtx)
  | fillColor (aa : Bool) (color : Color)
deriving DecidableEq, Repr

/-- The argument tuple handed to `createDrawCommand_VertexColor`
(vg.cpp:3870): batch type, paint handle, positions, color array with its
count, indices. -/
structure MeshReq where
  type : DrawType
  handleID : ℕ
  pos : List Pt
  colors : List Color
  numColors : ℕ
  indices : List ℕ
deriving DecidableEq, Repr

/-- The `(colors, numColors)` pair passed along with a stroker mesh
(vg.cpp:2246-2256): per-vertex colors with `numColors = numVertices` for AA
meshes, a broadcast single color otherwise; the same rule is applied to cached
meshes on replay (vg.cpp:4728-4729). -/
def meshColorsArg (m : CMesh) (col : Color) : List Color × ℕ :=
  match m.colors with
  | some cs => (cs, m.pos.length)
  | none => ([col], 1)

/-- Embedding of `addCachedCommand` (vg.cpp:4372-4410) for one mesh: store the
positions multiplied by the recorded inverse transform, store the color array
only when `numColors != 1`, copy the indices. -/
def cacheMeshOf (invM : Mtx) (m : CMesh) (col : Color) : CMesh :=
  let ca := meshColorsArg m col
  { pos := m.pos.map (applyMtx invM),
    colors := if ca.2 = 1 then none else some ca.1,
    indices := m.indices }

/-- A `CachedCommand` (vg.cpp `CachedCommand`): the inverse transform recorded
by `beginCachedCommand` (vg.cpp:4342-4358) and its meshes (the
`m_FirstMeshID`/`m_NumMeshes` range, inlined). -/
structure CachedCommandM where
  invTransform : Mtx
  meshes : List CMesh
deriving DecidableEq, Repr

/-- A `CommandListCache`: the average scale it was built at and its commands. -/
structure CacheM where
  avgScale : ℚ
  commands : List CachedCommandM
deriving DecidableEq, Repr

/-- Embedding of `ctxFillPathColor` (convex, vg.cpp:2196-2269) under an active
shape cache and outside a clip block: global alpha is forced to 1, the
transformed path is tessellated sub-path by sub-path (skipping those with
fewer than 3 vertices), each mesh is recorded into the cache in the local
frame of the current transform and submitted. -/
def buildFillColor (S : StrokerModel) (st : C2State) (aa : Bool) (color : Color) :
    C2State × CachedCommandM × List MeshReq :=
  let col := colorSetAlpha color (toByte (1 * (colorGetAlpha color : ℚ)))
  let tp := transformPathM st
  let subPaths := tp.1.filter (fun sp => decide (¬ sp.length < 3))
  let meshes := subPaths.map (fun sp => S.convexFill aa sp col)
  let invM := mtxInvert tp.2.mtx
  let cached : CachedCommandM :=
    { invTransform := invM, meshes := meshes.map (fun m => cacheMeshOf invM m col) }
  let reqs := meshes.map (fun m =>
    let ca := meshColorsArg m col
    { type := DrawType.textured, handleID := S.fontAtlasImage,
      pos := m.pos, colors := ca.1, numColors := ca.2, indices := m.indices })
  (tp.2, cached, reqs)

/-- Embedding of `submitCachedMesh` (Color overload, vg.cpp:4706-4735) outside
a clip block: replay each cached mesh with its positions transformed by the
current matrix, broadcasting the raw command color when no color array was
cached. -/
def replayFillColor (S : StrokerModel) (mtx : Mtx) (cc : CachedCommandM) (color : Color) :
    List MeshReq :=
  cc.meshes.map (fun m =>
    let ca := meshColorsArg m color
    { type := DrawType.textured, handleID := S.fontAtlasImage,
      pos := m.pos.map (applyMtx mtx), colors := ca.1, numColors := ca.2,
      indices := m.indices })

/-- The command-list walk of `ctxSubmitCommandList` (vg.cpp:3436-3725)
restricted to the fragment, building the cache: returns the final state, the
cached commands in production order, and the mesh submissions. -/
def buildRun (S : StrokerModel) : C2State → List CLCmd → C2State × List CachedCommandM × List MeshReq
  | st, [] => (st, [], [])
  | st, CLCmd.beginPath :: rest => buildRun S { st with path := [], pathXf := none } rest
  | st, CLCmd.addSubPath pts :: rest => buildRun S { st with path := st.path ++ [pts] } rest
  | st, CLCmd.setTransform m :: rest => buildRun S { st with mtx := m } rest
  | st, CLCmd.fillColor aa color :: rest =>
    let r1 := buildFillColor S st aa color
    let r2 := buildRun S r1.1 rest
    (r2.1, r1.2.1 :: r2.2.1, r1.2.2 ++ r2.2.2)

/-- The command-list walk of `clCacheRender` (vg.cpp:4414-4689) restricted to
the fragment: path commands are skipped (vg.cpp:4453), transforms execute
normally, each stroker command consumes the next cached command. -/
def replayRun (S : StrokerModel) : C2State → List CachedCommandM → List CLCmd → C2State × List MeshReq
  | st, _, [] => (st, [])
  | st, ccs, CLCmd.beginPath :: rest => replayRun S st ccs rest
  | st, ccs, CLCmd.addSubPath _ :: rest => replayRun S st ccs rest
  | st, ccs, CLCmd.setTransform m :: rest => replayRun S { st with mtx := m } ccs rest
  | st, [], CLCmd.fillColor _ _ :: rest => replayRun S st [] rest
  | st, cc :: ccs, CLCmd.fillColor _ color :: rest =>
    let reqs := replayFillColor S st.mtx cc color
    let r := replayRun S st ccs rest
    (r.1, reqs ++ r.2)

/-- The command-list context of the fragment: the drawing state and the
optional `CommandListCache` owned by the list. -/
structure CLCtx where
  st : C2State
  cache : Option CacheM
deriving Repr

/-- Embedding of `ctxSubmitCommandList` (vg.cpp:3377-3434) for a `Cacheable`
list: `clGetCache` lazily allocates a zeroed cache (vg.cpp:4308-4321); a
matching average scale replays via `clCacheRender`, otherwise the cache is
reset and rebuilt keyed to the scale at entry (vg.cpp:3388-3404); the
state-preservation bracket restores the transform on exit. -/
def submitCacheableCL (S : StrokerModel) (cmds : List CLCmd) (ctx : CLCtx) :
    CLCtx × List MeshReq :=
  let cache := ctx.cache.getD ⟨0, []⟩
  let stateScale := S.avgScaleOf ctx.st.mtx
  if cache.avgScale = stateScale then
    let r := replayRun S ctx.st cache.commands cmds
    ({ st := { r.1 with mtx := ctx.st.mtx }, cache := some cache }, r.2)
  else
    let r := buildRun S ctx.st cmds
    ({ st := { r.1 with mtx := ctx.st.mtx }, cache := some ⟨stateScale, r.2.1⟩ }, r.2.2)

/-- The transforms installed by a command list's transform commands. -/
def transformsOf (cmds : List CLCmd) : List Mtx :=
  cmds.filterMap fun cmd =>
    match cmd with
    | CLCmd.setTransform m => some m
    | _ => none

/-- Feed a sequence of mesh submissions through the draw-batch assembler. -/
def applyMeshReqs (ctx : Ctx) (reqs : List MeshReq) : Ctx :=
  reqs.foldl (fun c r => createDrawCommandMesh c r.type r.handleID r.pos.length r.indices.length) ctx

/-- The matching property asserted by `allocDrawCommand`'s debug checks
(vg.cpp:4034-4038) and maintained by the force-new-flag discipline: when the
flag is clear, the last draw command sits in the active vertex buffer and
carries the current scissor snapshot and clip state. -/
def lastCmdMatches (ctx : Ctx) : Prop :=
  ∀ prev, ctx.drawCommands.getLast? = some prev →
    prev.vertexBufferID = ctx.vbCounts.length - 1 ∧
    prev.scissorRect = castRect (currentScissor ctx) ∧
    prev.clipState = ctx.clipState

/-- The reachable-state invariant of the assembler machine. -/
def CtxInv (ctx : Ctx) : Prop :=
  ctx.vbCounts ≠ [] ∧ ctx.scissorStack ≠ [] ∧
  (ctx.recordClipCommands = false → ctx.forceNewDrawCommand = false → lastCmdMatches ctx)

/-- A concrete stroker model exercising the shape cache: a constant triangle
mesh without per-vertex colors and a constant average scale. -/
def c2S : StrokerModel :=
  { convexFill := fun _ _ _ => ⟨[(0, 0), (1, 0), (0, 1)], none, [0, 1, 2]⟩,
    avgScaleOf := fun _ => 1,
    fontAtlasImage := 7 }

/-- A concrete cacheable command list: one path with one triangle sub-path,
filled with a color fill. -/
def c2Cmds : List CLCmd :=
  [CLCmd.beginPath, CLCmd.addSubPath [(0, 0), (2, 0), (0, 2)],
   CLCmd.fillColor false ⟨5, 200⟩]

/-- A command-list context at the identity transform with no cache yet. -/
def c2Ctx : CLCtx := ⟨⟨mtxIdentity, [], none⟩, none⟩

/-! ## Theorems -/

/-- C10: `setGlobalAlpha` stores its float argument into the current state's
`globalAlpha` verbatim — no clamping to `[0,1]`, no change to any other state
field — and the stored value is the one used verbatim by the effective-alpha
computation of a subsequent color fill. -/
theorem setGlobalAlpha_verbatim (s : VGState) (alpha : ℚ) :
    (setGlobalAlpha s alpha).globalAlpha = alpha ∧
    (setGlobalAlpha s alpha).transformMtx = s.transformMtx ∧
    (setGlobalAlpha s alpha).scissorRect = s.scissorRect ∧
    (setGlobalAlpha s alpha).avgScale = s.avgScale ∧
    (setGlobalAlpha s alpha).fontScale = s.fontScale ∧
    ∀ c : Color, fillEffectiveColor (setGlobalAlpha s alpha) c
      = colorSetAlpha c (toByte (alpha * (colorGetAlpha c : ℚ))) :=
  ⟨rfl, rfl, rfl, rfl, rfl, fun _ => rfl⟩

/-- C7: the alpha-modulation factors of `ctxStrokePathColor` and
`ctxStrokePathImagePattern` apply the quadratic clamp modulation under
opposite `isThin` conditions: for thin strokes the color variant modulates and
the pattern variant does not, for non-thin strokes the roles swap; whenever
the modulation factor is proper (nonzero global alpha, square different from
one) the two variants genuinely disagree. -/
theorem strokeAlphaScale_oppositeThin (g sw f : ℚ) :
    (strokeIsThin sw f = true →
       strokeAlphaScaleImagePattern g sw f = g ∧
       strokeAlphaScaleColor g sw f = g * squareQ (clampQ sw 0 f)) ∧
    (strokeIsThin sw f = false →
       strokeAlphaScaleImagePattern g sw f = g * squareQ (clampQ sw 0 f) ∧
       strokeAlphaScaleColor g sw f = g) ∧
    (strokeIsThin sw f = true → g ≠ 0 → squareQ (clampQ sw 0 f) ≠ 1 →
       strokeAlphaScaleColor g sw f ≠ strokeAlphaScaleImagePattern g sw f) := by
  refine ⟨fun h => ?_, fun h => ?_, fun h hg hs => ?_⟩
  · simp [strokeAlphaScaleImagePattern, strokeAlphaScaleColor, h]
  · simp [strokeAlphaScaleImagePattern, strokeAlphaScaleColor, h]
  · simp only [strokeAlphaScaleImagePattern, strokeAlphaScaleColor, h, if_true]
    intro heq
    apply hs
    have hg2 : g * squareQ (clampQ sw 0 f) = g * 1 := by rw [heq, mul_one]
    exact mul_left_cancel₀ hg hg2

/-- Witness for `strokeAlphaScale_oppositeThin` at concrete inputs. -/
theorem strokeAlphaScale_oppositeThin_witness :
    (strokeAlphaScaleImagePattern 1 (1/2) 1 = 1 ∧
     strokeAlphaScaleColor 1 (1/2) 1 = 1 * squareQ (clampQ (1/2) 0 1)) ∧
    (strokeAlphaScaleImagePattern 1 2 1 = 1 * squareQ (clampQ 2 0 1) ∧
     strokeAlphaScaleColor 1 2 1 = 1) ∧
    strokeAlphaScaleColor 1 (1/2) 1 ≠ strokeAlphaScaleImagePattern 1 (1/2) 1 :=
  ⟨(strokeAlphaScale_oppositeThin 1 (1/2) 1).1 (by norm_num [strokeIsThin]),
   (strokeAlphaScale_oppositeThin 1 2 1).2.1 (by norm_num [strokeIsThin]),
   (strokeAlphaScale_oppositeThin 1 (1/2) 1).2.2 (by norm_num [strokeIsThin])
     (by norm_num) (by norm_num [squareQ, clampQ])⟩

/-- C6 counterexample: at fringe width `1/2` (device pixel ratio 2) and scaled
stroke width `1/2`, global alpha 1 and color alpha 255, the code emits alpha
byte 63 (`base * clamp(w,0,fringe)^2 = 255/4`), not the claimed
`base * (w/fringe)^2 = 255`. -/
theorem strokePathColor_thinAlpha_counterexample :
    ((ctxStrokePathColorHead 1 (1/2) ⟨0, 255⟩ (1/2) 1 false).col.a.val = 63) ∧
    (claimedThinStrokeAlphaByte 1 (1/2) (scaledStrokeWidthOf false (1/2) 1) 255 = 255) ∧
    (63 : ℕ) ≠ 255 := by
  refine ⟨?_, ?_, by norm_num⟩
  · norm_num [ctxStrokePathColorHead, strokeAlphaScaleColor, strokeIsThin,
      scaledStrokeWidthOf, clampQ, squareQ, toByte, colorGetAlpha, colorSetAlpha,
      show ((255 : Fin 256) : ℕ) = 255 from rfl]
    decide
  · norm_num [claimedThinStrokeAlphaByte, scaledStrokeWidthOf, clampQ, squareQ, toByte]
    decide

/-- C6 (amended): for a color stroke whose scaled width is at or below the
fringe width, the stroker width is clamped up to the fringe width and the
effective alpha byte is the cast of
`globalAlpha * clamp(scaledWidth, 0, fringe)^2 * colorAlpha`; this agrees with
the claimed `base_alpha * (scaledWidth/fringe)^2` exactly when the fringe
width is 1 (device pixel ratio 1) and the scaled width is non-negative. -/
theorem strokePathColor_thin (g f w avg : ℚ) (c : Color) (fw : Bool)
    (hthin : scaledStrokeWidthOf fw w avg ≤ f) :
    (ctxStrokePathColorHead g f c w avg fw).strokeWidth = f ∧
    (ctxStrokePathColorHead g f c w avg fw).col
      = colorSetAlpha c (toByte (g * squareQ (clampQ (scaledStrokeWidthOf fw w avg) 0 f)
          * (colorGetAlpha c : ℚ))) ∧
    (f = 1 → 0 ≤ scaledStrokeWidthOf fw w avg →
      (ctxStrokePathColorHead g f c w avg fw).col
        = colorSetAlpha c (toByte (g * (colorGetAlpha c : ℚ)
            * squareQ (scaledStrokeWidthOf fw w avg / f)))) := by
  have hb : strokeIsThin (scaledStrokeWidthOf fw w avg) f = true := by
    simp [strokeIsThin, hthin]
  refine ⟨?_, ?_, ?_⟩
  · simp [ctxStrokePathColorHead, strokeWidthUsed, hb]
  · simp [ctxStrokePathColorHead, strokeAlphaScaleColor, hb]
  · intro hf hnn
    have hclamp : clampQ (scaledStrokeWidthOf fw w avg) 0 f = scaledStrokeWidthOf fw w avg := by
      rw [clampQ, max_eq_left hnn, min_eq_left hthin]
    have harg : g * squareQ (clampQ (scaledStrokeWidthOf fw w avg) 0 f)
          * (colorGetAlpha c : ℚ)
        = g * (colorGetAlpha c : ℚ) * squareQ (scaledStrokeWidthOf fw w avg / f) := by
      rw [hclamp, hf]
      simp [squareQ]
      ring
    simp only [ctxStrokePathColorHead, strokeAlphaScaleColor, hb, if_true]
    rw [harg]

/-- Witness for `strokePathColor_thin` at fringe 1, width 1/2, alpha 200. -/
theorem strokePathColor_thin_witness :
    scaledStrokeWidthOf false (1/2) 1 ≤ (1 : ℚ) ∧
    ((ctxStrokePathColorHead 1 1 ⟨0, 200⟩ (1/2) 1 false).strokeWidth = 1 ∧
     (ctxStrokePathColorHead 1 1 ⟨0, 200⟩ (1/2) 1 false).col
       = colorSetAlpha ⟨0, 200⟩ (toByte (1 * squareQ (clampQ (scaledStrokeWidthOf false (1/2) 1) 0 1)
           * (colorGetAlpha ⟨0, 200⟩ : ℚ))) ∧
     ((1 : ℚ) = 1 → 0 ≤ scaledStrokeWidthOf false (1/2) 1 →
       (ctxStrokePathColorHead 1 1 ⟨0, 200⟩ (1/2) 1 false).col
         = colorSetAlpha ⟨0, 200⟩ (toByte (1 * (colorGetAlpha ⟨0, 200⟩ : ℚ)
             * squareQ (scaledStrokeWidthOf false (1/2) 1 / 1))))) :=
  ⟨by norm_num [scaledStrokeWidthOf, clampQ],
   strokePathColor_thin 1 1 (1/2) 1 ⟨0, 200⟩ false (by norm_num [scaledStrokeWidthOf, clampQ])⟩

/-- C8 counterexample: intersecting the canvas scissor with the rect
`(0,0,1/2,4)` under the identity transform yields a rect of area 2 (at least
1), yet the call returns `false` — refuting "returns false if and only if the
resulting area is below 1". -/
theorem intersectScissor_area_counterexample :
    ((ctxIntersectScissor mtxIdentity ⟨0, 0, 100, 100⟩ 0 0 (1/2) 4).2 = false) ∧
    (1 ≤ (ctxIntersectScissor mtxIdentity ⟨0, 0, 100, 100⟩ 0 0 (1/2) 4).1.w
       * (ctxIntersectScissor mtxIdentity ⟨0, 0, 100, 100⟩ 0 0 (1/2) 4).1.h) := by
  norm_num [ctxIntersectScissor, transformPos2D, transformVec2D, mtxIdentity]

/-- C8 (amended): `intersectScissor` replaces the scissor with the clamped
intersection of the transformed rect's span and the existing scissor — a point
lies in the stored rect exactly when it lies in both spans, whenever the
intersection is non-degenerate — and returns `false` if and only if the
resulting width or the resulting height is below 1 (not the area). -/
theorem intersectScissor_spec (m : Mtx) (sc : Rect) (x y w h : ℚ) :
    ((ctxIntersectScissor m sc x y w h).2 = false ↔
       ((ctxIntersectScissor m sc x y w h).1.w < 1 ∨
        (ctxIntersectScissor m sc x y w h).1.h < 1)) ∧
    (max (transformPos2D x y m).1 sc.x
        ≤ min ((transformPos2D x y m).1 + (transformVec2D w h m).1) (sc.x + sc.w) →
     max (transformPos2D x y m).2 sc.y
        ≤ min ((transformPos2D x y m).2 + (transformVec2D w h m).2) (sc.y + sc.h) →
     ∀ px py : ℚ,
       ((ctxIntersectScissor m sc x y w h).1.x ≤ px ∧
        px ≤ (ctxIntersectScissor m sc x y w h).1.x + (ctxIntersectScissor m sc x y w h).1.w ∧
        (ctxIntersectScissor m sc x y w h).1.y ≤ py ∧
        py ≤ (ctxIntersectScissor m sc x y w h).1.y + (ctxIntersectScissor m sc x y w h).1.h) ↔
       (((transformPos2D x y m).1 ≤ px ∧ px ≤ (transformPos2D x y m).1 + (transformVec2D w h m).1 ∧
         (transformPos2D x y m).2 ≤ py ∧ py ≤ (transformPos2D x y m).2 + (transformVec2D w h m).2) ∧
        (sc.x ≤ px ∧ px ≤ sc.x + sc.w ∧ sc.y ≤ py ∧ py ≤ sc.y + sc.h))) := by
  constructor
  · simp only [ctxIntersectScissor, Bool.and_eq_false_iff, decide_eq_false_iff_not, not_le]
  · intro hwx hwy px py
    simp only [ctxIntersectScissor]
    have hx : max 0 (min ((transformPos2D x y m).1 + (transformVec2D w h m).1) (sc.x + sc.w)
        - max (transformPos2D x y m).1 sc.x)
        = min ((transformPos2D x y m).1 + (transformVec2D w h m).1) (sc.x + sc.w)
          - max (transformPos2D x y m).1 sc.x := max_eq_right (by linarith)
    have hy : max 0 (min ((transformPos2D x y m).2 + (transformVec2D w h m).2) (sc.y + sc.h)
        - max (transformPos2D x y m).2 sc.y)
        = min ((transformPos2D x y m).2 + (transformVec2D w h m).2) (sc.y + sc.h)
          - max (transformPos2D x y m).2 sc.y := max_eq_right (by linarith)
    rw [hx, hy]
    constructor
    · rintro ⟨h1, h2, h3, h4⟩
      rw [max_le_iff] at h1 h3
      have h2l : px ≤ min ((transformPos2D x y m).1 + (transformVec2D w h m).1) (sc.x + sc.w) := by
        linarith
      have h4l : py ≤ min ((transformPos2D x y m).2 + (transformVec2D w h m).2) (sc.y + sc.h) := by
        linarith
      rw [le_min_iff] at h2l h4l
      exact ⟨⟨h1.1, h2l.1, h3.1, h4l.1⟩, ⟨h1.2, h2l.2, h3.2, h4l.2⟩⟩
    · rintro ⟨⟨h1, h2, h3, h4⟩, h5, h6, h7, h8⟩
      refine ⟨max_le h1 h5, ?_, max_le h3 h7, ?_⟩
      · have hpx : px ≤ min ((transformPos2D x y m).1 + (transformVec2D w h m).1) (sc.x + sc.w) :=
          le_min h2 h6
        linarith
      · have hpy : py ≤ min ((transformPos2D x y m).2 + (transformVec2D w h m).2) (sc.y + sc.h) :=
          le_min h4 h8
        linarith

/-- Witness for `intersectScissor_spec` at a non-degenerate intersection. -/
theorem intersectScissor_spec_witness :
    (((ctxIntersectScissor mtxIdentity ⟨0, 0, 100, 100⟩ 10 10 50 50).2 = false ↔
       ((ctxIntersectScissor mtxIdentity ⟨0, 0, 100, 100⟩ 10 10 50 50).1.w < 1 ∨
        (ctxIntersectScissor mtxIdentity ⟨0, 0, 100, 100⟩ 10 10 50 50).1.h < 1))) ∧
    ((ctxIntersectScissor mtxIdentity ⟨0, 0, 100, 100⟩ 10 10 50 50).1.x ≤ 20 ∧
      (20 : ℚ) ≤ (ctxIntersectScissor mtxIdentity ⟨0, 0, 100, 100⟩ 10 10 50 50).1.x
        + (ctxIntersectScissor mtxIdentity ⟨0, 0, 100, 100⟩ 10 10 50 50).1.w ∧
      (ctxIntersectScissor mtxIdentity ⟨0, 0, 100, 100⟩ 10 10 50 50).1.y ≤ 20 ∧
      (20 : ℚ) ≤ (ctxIntersectScissor mtxIdentity ⟨0, 0, 100, 100⟩ 10 10 50 50).1.y
        + (ctxIntersectScissor mtxIdentity ⟨0, 0, 100, 100⟩ 10 10 50 50).1.h) := by
  refine ⟨(intersectScissor_spec mtxIdentity ⟨0, 0, 100, 100⟩ 10 10 50 50).1, ?_⟩
  have h := (intersectScissor_spec mtxIdentity ⟨0, 0, 100, 100⟩ 10 10 50 50).2
    (by norm_num [transformPos2D, transformVec2D, mtxIdentity])
    (by norm_num [transformPos2D, transformVec2D, mtxIdentity]) 20 20
  exact h.mpr (by norm_num [transformPos2D, transformVec2D, mtxIdentity])

/-- Helper for C9: the contour loop of the concave fill aborts exactly when
some sub-path has fewer than 3 vertices; otherwise it accumulates every
sub-path as a contour, in order. -/
theorem concaveAddContours_eq (sps : List SubPath) :
    ∀ acc, concaveAddContours sps acc
      = if ∀ sp ∈ sps, 3 ≤ sp.numVertices then some (acc ++ sps) else none := by
  induction sps with
  | nil => intro acc; simp [concaveAddContours]
  | cons sp rest ih =>
    intro acc
    by_cases hsp : sp.numVertices < 3
    · rw [concaveAddContours, if_pos hsp, if_neg]
      intro hcon
      exact absurd (hcon sp (by simp)) (by omega)
    · rw [concaveAddContours, if_neg hsp, ih]
      by_cases hrest : ∀ x ∈ rest, 3 ≤ x.numVertices
      · rw [if_pos hrest, if_pos]
        · simp
        · intro x hx
          rcases List.mem_cons.mp hx with hx1 | hx2
          · subst hx1; omega
          · exact hrest x hx2
      · rw [if_neg hrest, if_neg]
        intro hcon
        exact hrest fun x hx => hcon x (List.mem_cons_of_mem sp hx)

/-- C9 (amended): convex fills skip sub-paths with fewer than 3 vertices and
still fill the remaining sub-paths; strokes skip sub-paths with fewer than 2
vertices and still stroke the rest; but a concave fill whose sub-path list
contains any sub-path with fewer than 3 vertices aborts the entire call and
emits nothing — the other sub-paths of the same call are not filled. -/
theorem fillStroke_smallSubPaths {μ : Type} (tess : SubPath → μ)
    (tessEnd : List SubPath → Option μ) (stess : SubPath → μ) (sps : List SubPath) :
    (fillPathConvexMeshes tess sps
       = (sps.filter fun sp => decide (¬ sp.numVertices < 3)).map tess) ∧
    (strokePathMeshes stess sps
       = (sps.filter fun sp => decide (¬ sp.numVertices < 2)).map stess) ∧
    ((∃ sp ∈ sps, sp.numVertices < 3) → fillPathConcaveMeshes tessEnd sps = []) ∧
    ((∀ sp ∈ sps, ¬ sp.numVertices < 3) →
       fillPathConcaveMeshes tessEnd sps
         = match tessEnd sps with
           | some mesh => [mesh]
           | none => []) := by
  refine ⟨?_, ?_, ?_, ?_⟩
  · induction sps with
    | nil => simp [fillPathConvexMeshes]
    | cons sp rest ih =>
      by_cases hsp : sp.numVertices < 3
      · have h3 : ¬ 3 ≤ sp.numVertices := by omega
        simp [fillPathConvexMeshes, hsp, h3, ih, List.filter_cons]
      · have h3 : 3 ≤ sp.numVertices := by omega
        simp [fillPathConvexMeshes, hsp, h3, ih, List.filter_cons]
  · induction sps with
    | nil => simp [strokePathMeshes]
    | cons sp rest ih =>
      by_cases hsp : sp.numVertices < 2
      · have h2 : ¬ 2 ≤ sp.numVertices := by omega
        simp [strokePathMeshes, hsp, h2, ih, List.filter_cons]
      · have h2 : 2 ≤ sp.numVertices := by omega
        simp [strokePathMeshes, hsp, h2, ih, List.filter_cons]
  · rintro ⟨sp, hmem, hlt⟩
    have hall : ¬ ∀ x ∈ sps, 3 ≤ x.numVertices := by
      intro hforall
      exact absurd (hforall sp hmem) (by omega)
    rw [fillPathConcaveMeshes, concaveAddContours_eq, if_neg hall]
  · intro hall
    have hall2 : ∀ x ∈ sps, 3 ≤ x.numVertices := fun x hx => by
      have := hall x hx; omega
    rw [fillPathConcaveMeshes, concaveAddContours_eq, if_pos hall2]
    simp

/-- C9 counterexample: a concave fill with a 3-vertex sub-path followed by a
2-vertex sub-path emits nothing at all (with a stroker that always
decomposes), while the 3-vertex sub-path alone is filled — so the remaining
sub-paths of a call touching a short sub-path are not filled as the claim
states. -/
theorem fillConcave_abort_counterexample :
    (fillPathConcaveMeshes (μ := List SubPath) (fun cs => some cs)
       [⟨0, 3, true⟩, ⟨3, 2, true⟩] = []) ∧
    (fillPathConcaveMeshes (μ := List SubPath) (fun cs => some cs)
       [(⟨0, 3, true⟩ : SubPath)] = [[⟨0, 3, true⟩]]) := by
  constructor
  · simp [fillPathConcaveMeshes, concaveAddContours]
  · simp [fillPathConcaveMeshes, concaveAddContours]

/-- Witness for `fillStroke_smallSubPaths`. -/
theorem fillStroke_smallSubPaths_witness :
    ((∃ sp ∈ ([⟨0, 3, true⟩, ⟨3, 2, true⟩] : List SubPath), sp.numVertices < 3) ∧
     fillPathConcaveMeshes (μ := List SubPath) (fun cs => some cs)
       [⟨0, 3, true⟩, ⟨3, 2, true⟩] = []) ∧
    ((∀ sp ∈ ([(⟨0, 3, true⟩ : SubPath)] : List SubPath), ¬ sp.numVertices < 3) ∧
     fillPathConcaveMeshes (μ := List SubPath) (fun cs => some cs)
       [(⟨0, 3, true⟩ : SubPath)]
       = match some [(⟨0, 3, true⟩ : SubPath)] with
         | some mesh => [mesh]
         | none => []) :=
  ⟨⟨by decide,
    (fillStroke_smallSubPaths (μ := List SubPath) (fun sp => [sp]) (fun cs => some cs)
      (fun sp => [sp]) [⟨0, 3, true⟩, ⟨3, 2, true⟩]).2.2.1 (by decide)⟩,
   ⟨by decide,
    (fillStroke_smallSubPaths (μ := List SubPath) (fun sp => [sp]) (fun cs => some cs)
      (fun sp => [sp]) [(⟨0, 3, true⟩ : SubPath)]).2.2.2 (by decide)⟩⟩

/-- Helper for C3: the playback loop resolves every use command against the
bases it was given, regardless of the create commands interleaved with them. -/
theorem playPaintCmds_resolved (fg fp : ℕ) :
    ∀ cmds (c : PaintCtx), (playPaintCmds fg fp c cmds).2 = claimedResolution fg fp cmds := by
  intro cmds
  induction cmds with
  | nil => intro c; simp [playPaintCmds, claimedResolution]
  | cons cmd rest ih =>
    intro c
    cases cmd with
    | createGradient =>
      simp [playPaintCmds, claimedResolution, List.filterMap_cons, ih]
    | createImagePattern =>
      simp [playPaintCmds, claimedResolution, List.filterMap_cons, ih]
    | useGradient h =>
      simp only [playPaintCmds, List.filterMap_cons]
      rw [ih c]
      simp [claimedResolution, resolveHandle]
    | useImagePattern h =>
      simp only [playPaintCmds, List.filterMap_cons]
      rw [ih c]
      simp [claimedResolution, resolveHandle]
    | other =>
      simp [playPaintCmds, claimedResolution, List.filterMap_cons, ih]

/-- C3: during command-list playback, a gradient or image-pattern handle
recorded with the Local flag and list-local id `k` is resolved to the global
id `k` plus the context's `nextGradientID` (respectively
`nextImagePatternID`) captured at the start of the `submitCommandList` call —
unaffected by the paint-creation commands replayed along the way — while
handles without the Local flag are passed to the fill/stroke calls
unchanged. -/
theorem ctxSubmitCommandList_handleRemap (c : PaintCtx) (cmds : List PCmd)
    (hG : c.nextGradientID < 65536) (hP : c.nextImagePatternID < 65536)
    (hRange : ∀ cmd ∈ cmds,
      match cmd with
      | PCmd.useGradient hdl => hdl.flagLocal = true → hdl.id + c.nextGradientID < 65536
      | PCmd.useImagePattern hdl => hdl.flagLocal = true → hdl.id + c.nextImagePatternID < 65536
      | _ => True) :
    (submitPaintCmds c cmds).2 = cmds.filterMap fun cmd =>
      match cmd with
      | PCmd.useGradient hdl =>
        some (ResolvedPaint.gradient
          (if hdl.flagLocal then hdl.id + c.nextGradientID else hdl.id))
      | PCmd.useImagePattern hdl =>
        some (ResolvedPaint.imagePattern
          (if hdl.flagLocal then hdl.id + c.nextImagePatternID else hdl.id))
      | _ => none := by
  rw [submitPaintCmds, playPaintCmds_resolved, claimedResolution]
  apply List.filterMap_congr
  intro cmd hmem
  have hr := hRange cmd hmem
  cases cmd with
  | useGradient hdl =>
    by_cases hl : hdl.flagLocal
    · simp only [hl, if_true]
      have hb : c.nextGradientID % 65536 = c.nextGradientID := Nat.mod_eq_of_lt hG
      rw [hb, Nat.mod_eq_of_lt (hr hl)]
    · simp [hl]
  | useImagePattern hdl =>
    by_cases hl : hdl.flagLocal
    · simp only [hl, if_true]
      have hb : c.nextImagePatternID % 65536 = c.nextImagePatternID := Nat.mod_eq_of_lt hP
      rw [hb, Nat.mod_eq_of_lt (hr hl)]
    · simp [hl]
  | createGradient => rfl
  | createImagePattern => rfl
  | other => rfl

/-- Witness for `ctxSubmitCommandList_handleRemap`: two local handles and a
pass-through handle resolved against bases 2 and 5. -/
theorem ctxSubmitCommandList_handleRemap_witness :
    ((2 : ℕ) < 65536) ∧ ((5 : ℕ) < 65536) ∧
    (submitPaintCmds ⟨2, 5, 64, 64⟩
        [PCmd.createGradient, PCmd.useGradient ⟨0, true⟩, PCmd.useGradient ⟨9, false⟩,
         PCmd.createImagePattern, PCmd.useImagePattern ⟨1, true⟩]).2
      = [ResolvedPaint.gradient 2, ResolvedPaint.gradient 9, ResolvedPaint.imagePattern 6] := by
  refine ⟨by decide, by decide, ?_⟩
  rw [ctxSubmitCommandList_handleRemap ⟨2, 5, 64, 64⟩ _ (by decide) (by decide)
    (by intro cmd hmem; fin_cases hmem <;> simp)]
  decide

/-- Helper for C4: both the submit skeleton and the playback loop leave the
recursion-depth counter exactly where they found it, at every fuel. -/
theorem submitCLF_depth (env : ℕ → List NCmd) (md : ℕ) :
    ∀ fuel, (∀ (c : NCtx) lid, (submitCLF env md fuel c lid).depth = c.depth) ∧
      (∀ (c : NCtx) cmds, (playNList env md fuel c cmds).depth = c.depth) := by
  intro fuel
  induction fuel with
  | zero =>
    have hs : ∀ (c : NCtx) lid, (submitCLF env md 0 c lid).depth = c.depth := by
      intro c lid
      rw [submitCLF.eq_def]
      by_cases h : md ≤ c.depth <;> simp [h]
    refine ⟨hs, ?_⟩
    intro c cmds
    induction cmds generalizing c with
    | nil => rw [playNList]
    | cons cmd rest ihl =>
      cases cmd with
      | draw t =>
        rw [playNList]
        exact ihl _
      | submit lid =>
        rw [playNList]
        rw [ihl _, hs]
  | succ n ihn =>
    have hs : ∀ (c : NCtx) lid, (submitCLF env md (n + 1) c lid).depth = c.depth := by
      intro c lid
      rw [submitCLF.eq_def]
      by_cases h : md ≤ c.depth
      · simp [h]
      · simp only [h, if_false]
        have hp := ihn.2 { c with depth := c.depth + 1 } (env lid)
        simp [hp]
    refine ⟨hs, ?_⟩
    intro c cmds
    induction cmds generalizing c with
    | nil => rw [playNList]
    | cons cmd rest ihl =>
      cases cmd with
      | draw t =>
        rw [playNList]
        exact ihl _
      | submit lid =>
        rw [playNList]
        rw [ihl _, hs]

/-- Helper for C4: the fuel of the embedding is irrelevant whenever it exceeds
the remaining depth budget, for the submit skeleton and the playback loop
alike. -/
theorem submitCLF_fuel_irrel (env : ℕ → List NCmd) (md : ℕ) :
    ∀ f1, (∀ f2 (c : NCtx) lid, md < c.depth + f1 → md < c.depth + f2 →
             submitCLF env md f1 c lid = submitCLF env md f2 c lid) ∧
          (∀ f2 (c : NCtx) cmds, md < c.depth + f1 → md < c.depth + f2 →
             playNList env md f1 c cmds = playNList env md f2 c cmds) := by
  intro f1
  induction f1 with
  | zero =>
    have hs : ∀ f2 (c : NCtx) lid, md < c.depth + 0 → md < c.depth + f2 →
        submitCLF env md 0 c lid = submitCLF env md f2 c lid := by
      intro f2 c lid h1 h2
      have h : md ≤ c.depth := by omega
      rw [submitCLF.eq_def, submitCLF.eq_def]
      simp [h]
    refine ⟨hs, ?_⟩
    intro f2 c cmds h1 h2
    induction cmds generalizing c with
    | nil => rw [playNList, playNList]
    | cons cmd rest ihl =>
      cases cmd with
      | draw t =>
        rw [playNList, playNList]
        exact ihl _ h1 h2
      | submit lid =>
        rw [playNList, playNList]
        have he : submitCLF env md 0 c lid = submitCLF env md f2 c lid := hs f2 c lid h1 h2
        rw [← he]
        have hd : (submitCLF env md 0 c lid).depth = c.depth := (submitCLF_depth env md 0).1 c lid
        exact ihl _ (by omega) (by omega)
  | succ n ihn =>
    have hs : ∀ f2 (c : NCtx) lid, md < c.depth + (n + 1) → md < c.depth + f2 →
        submitCLF env md (n + 1) c lid = submitCLF env md f2 c lid := by
      intro f2 c lid h1 h2
      by_cases h : md ≤ c.depth
      · rw [submitCLF.eq_def, submitCLF.eq_def]
        simp [h]
      · cases f2 with
        | zero => omega
        | succ m =>
          rw [submitCLF.eq_def, submitCLF.eq_def]
          simp only [h, if_false]
          have hp := ihn.2 m { c with depth := c.depth + 1 } (env lid)
            (by simp; omega) (by simp; omega)
          rw [hp]
    refine ⟨hs, ?_⟩
    intro f2 c cmds h1 h2
    induction cmds generalizing c with
    | nil => rw [playNList, playNList]
    | cons cmd rest ihl =>
      cases cmd with
      | draw t =>
        rw [playNList, playNList]
        exact ihl _ h1 h2
      | submit lid =>
        rw [playNList, playNList]
        have he : submitCLF env md (n + 1) c lid = submitCLF env md f2 c lid :=
          hs f2 c lid h1 h2
        rw [← he]
        have hd : (submitCLF env md (n + 1) c lid).depth = c.depth :=
          (submitCLF_depth env md (n + 1)).1 c lid
        exact ihl _ (by omega) (by omega)

/-- C4: a `submitCommandList` call entered while the recursion depth is at or
over `maxCommandListDepth` is a complete no-op — it plays no bytecode,
produces no draw work and leaves the context (including the depth counter)
unchanged; every submit restores the depth counter on exit; and an enclosing
playback simply continues past an over-depth nested submit, processing the
remaining commands normally. -/
theorem submitCommandList_recursionLimit (env : ℕ → List NCmd) (md : ℕ) :
    (∀ (c : NCtx) lid, md ≤ c.depth → ctxSubmitCommandListN env md c lid = c) ∧
    (∀ (c : NCtx) lid, (ctxSubmitCommandListN env md c lid).depth = c.depth) ∧
    (∀ fuel (c : NCtx) lid rest, md ≤ c.depth →
       playNList env md fuel c (NCmd.submit lid :: rest) = playNList env md fuel c rest) := by
  refine ⟨?_, ?_, ?_⟩
  · intro c lid h
    rw [ctxSubmitCommandListN, submitCLF]
    simp [h]
  · intro c lid
    exact (submitCLF_depth env md (md + 1)).1 c lid
  · intro fuel c lid rest h
    rw [playNList]
    have hnoop : submitCLF env md fuel c lid = c := by
      rw [submitCLF.eq_def]
      simp [h]
    rw [hnoop]

/-- Witness for `submitCommandList_recursionLimit` with `maxCommandListDepth`
2: the over-depth call is the identity, the depth is restored at depth 0, and
an over-depth nested submit inside a playback is skipped. -/
theorem submitCommandList_recursionLimit_witness :
    ((2 : ℕ) ≤ 2 ∧
     ctxSubmitCommandListN (fun i => [NCmd.draw i, NCmd.submit (i + 1)]) 2 ⟨2, []⟩ 0 = ⟨2, []⟩) ∧
    ((ctxSubmitCommandListN (fun i => [NCmd.draw i, NCmd.submit (i + 1)]) 2 ⟨0, []⟩ 0).depth = 0) ∧
    ((2 : ℕ) ≤ 2 ∧
     playNList (fun i => [NCmd.draw i, NCmd.submit (i + 1)]) 2 3 ⟨2, [7]⟩
        (NCmd.submit 5 :: [NCmd.draw 9])
       = playNList (fun i => [NCmd.draw i, NCmd.submit (i + 1)]) 2 3 ⟨2, [7]⟩ [NCmd.draw 9]) :=
  ⟨⟨by decide,
    (submitCommandList_recursionLimit (fun i => [NCmd.draw i, NCmd.submit (i + 1)]) 2).1
      ⟨2, []⟩ 0 (by decide)⟩,
   (submitCommandList_recursionLimit (fun i => [NCmd.draw i, NCmd.submit (i + 1)]) 2).2.1
      ⟨0, []⟩ 0,
   ⟨by decide,
    (submitCommandList_recursionLimit (fun i => [NCmd.draw i, NCmd.submit (i + 1)]) 2).2.2
      3 ⟨2, [7]⟩ 5 [NCmd.draw 9] (by decide)⟩⟩

/-- `mapLast` on a list ending in `x` rewrites only that element. -/
theorem mapLast_concat {α : Type} (g : α → α) (l : List α) (x : α) :
    mapLast g (l ++ [x]) = l ++ [g x] := by
  rw [mapLast, List.getLast?_concat, List.dropLast_concat]

/-- `mapLast` keeps the length. -/
theorem mapLast_length {α : Type} (g : α → α) (l : List α) :
    (mapLast g l).length = l.length := by
  rw [mapLast]
  cases hl : l.getLast? with
  | none =>
    rw [List.getLast?_eq_none_iff.mp hl]
  | some x =>
    have hne : l ≠ [] := by
      intro h
      rw [h] at hl
      simp at hl
    have hpos : 1 ≤ l.length := List.length_pos.mpr hne
    simp [List.length_dropLast]
    omega

/-- `mapLast` leaves every strict prefix alone. -/
theorem mapLast_take {α : Type} (g : α → α) (l : List α) (n : ℕ) (h : n < l.length) :
    (mapLast g l).take n = l.take n := by
  rw [mapLast]
  cases hl : l.getLast? with
  | none =>
    rw [List.getLast?_eq_none_iff.mp hl] at h
    simp at h
  | some x =>
    have hlen : l.dropLast.length = l.length - 1 := List.length_dropLast l
    rw [List.take_append_of_le_length (by omega)]
    rw [List.dropLast_eq_take]
    rw [List.take_take]
    congr 1
    omega

/-- `mapLast` maps the last element. -/
theorem mapLast_getLast? {α : Type} (g : α → α) (l : List α) :
    (mapLast g l).getLast? = l.getLast?.map g := by
  rw [mapLast]
  cases hl : l.getLast? with
  | none => rfl
  | some x =>
    rw [List.getLast?_concat]
    rfl

/-- `setLast` keeps the length of a non-empty list. -/
theorem setLast_length (l : List ℕ) (v : ℕ) (h : l ≠ []) :
    (setLast l v).length = l.length := by
  rw [setLast]
  simp [List.length_dropLast]
  have : 1 ≤ l.length := List.length_pos.mpr h
  omega

/-- `setLast` never empties a list. -/
theorem setLast_ne_nil (l : List ℕ) (v : ℕ) : setLast l v ≠ [] := by
  rw [setLast]
  simp

/-- Helper for C5: one clip mesh keeps the recording flag, the clip state, the
scissor stack and every clip command below index `n`; the clip stream never
shrinks, and either the force-new-clip flag is set or the stream is already
longer than `n`. -/
theorem createClipCommandMesh_spec (ctx : Ctx) (nv ni n : ℕ)
    (hn : n ≤ ctx.clipCommands.length)
    (hforce : ctx.forceNewClipCommand = true ∨ n < ctx.clipCommands.length) :
    (createClipCommandMesh ctx nv ni).recordClipCommands = ctx.recordClipCommands ∧
    (createClipCommandMesh ctx nv ni).clipState = ctx.clipState ∧
    n ≤ (createClipCommandMesh ctx nv ni).clipCommands.length ∧
    (createClipCommandMesh ctx nv ni).clipCommands.take n = ctx.clipCommands.take n ∧
    ((createClipCommandMesh ctx nv ni).forceNewClipCommand = true ∨
      n < (createClipCommandMesh ctx nv ni).clipCommands.length) ∧
    (createClipCommandMesh ctx nv ni).scissorStack = ctx.scissorStack := by
  rw [createClipCommandMesh, allocClipCommand, allocVertices]
  by_cases hroll : ctx.maxVBVertices < ctx.vbCounts.getLastD 0 + nv
  · -- vertex-buffer rollover: force flags set, merge impossible, fresh command
    simp only [hroll, if_true]
    refine ⟨?_, ?_, ?_, ?_, ?_, ?_⟩ <;>
      simp [mapLast_concat, List.take_append_of_le_length hn] <;> omega
  · simp only [hroll, if_false]
    by_cases hf : ctx.forceNewClipCommand
    · -- force-new set: fresh command
      simp only [hf, Bool.not_true, Bool.false_and, Bool.false_eq_true, if_false]
      refine ⟨?_, ?_, ?_, ?_, ?_, ?_⟩ <;>
        simp [mapLast_concat, List.take_append_of_le_length hn] <;> omega
    · -- force-new clear: the invariant gives a non-empty stream, so merge
      have hf2 : ctx.forceNewClipCommand = false := by
        simpa using hf
      have hlt : n < ctx.clipCommands.length := by
        rcases hforce with h | h
        · rw [h] at hf2
          cases hf2
        · exact h
      have hne : ctx.clipCommands ≠ [] := by
        intro h0
        rw [h0] at hlt
        simp at hlt
      have hie : ctx.clipCommands.isEmpty = false := by
        cases hcc : ctx.clipCommands with
        | nil => exact absurd hcc hne
        | cons a l => rfl
      refine ⟨?_, ?_, ?_, ?_, ?_, ?_⟩ <;>
        simp [hf2, hie, mapLast_length,
          mapLast_take (bumpCounts nv ni) ctx.clipCommands n hlt] <;> omega

/-- Helper for C5: a block of clip meshes recorded between `beginClip` and
`endClip` only appends to the clip stream past index `n`, keeps the clip
state, the recording flag and the scissor stack. -/
theorem runClipMeshes (n : ℕ) :
    ∀ (ms : List (ℕ × ℕ)) (ctx : Ctx), ctx.recordClipCommands = true →
      n ≤ ctx.clipCommands.length →
      (ctx.forceNewClipCommand = true ∨ n < ctx.clipCommands.length) →
      (runOps ctx (ms.map fun p => Op.clipMesh p.1 p.2)).recordClipCommands = true ∧
      (runOps ctx (ms.map fun p => Op.clipMesh p.1 p.2)).clipState = ctx.clipState ∧
      n ≤ (runOps ctx (ms.map fun p => Op.clipMesh p.1 p.2)).clipCommands.length ∧
      (runOps ctx (ms.map fun p => Op.clipMesh p.1 p.2)).clipCommands.take n
        = ctx.clipCommands.take n ∧
      (runOps ctx (ms.map fun p => Op.clipMesh p.1 p.2)).scissorStack = ctx.scissorStack := by
  intro ms
  induction ms with
  | nil =>
    intro ctx hrec hn hforce
    exact ⟨hrec, rfl, hn, rfl, rfl⟩
  | cons m rest ih =>
    intro ctx hrec hn hforce
    have hstep : step ctx (Op.clipMesh m.1 m.2) = createClipCommandMesh ctx m.1 m.2 := by
      simp [step, hrec]
    have hs := createClipCommandMesh_spec ctx m.1 m.2 n hn hforce
    have hrun : runOps ctx ((m :: rest).map fun p => Op.clipMesh p.1 p.2)
        = runOps (createClipCommandMesh ctx m.1 m.2) (rest.map fun p => Op.clipMesh p.1 p.2) := by
      simp only [List.map_cons, runOps, List.foldl_cons, hstep]
    rw [hrun]
    have hih := ih (createClipCommandMesh ctx m.1 m.2)
      (by rw [hs.1]; exact hrec) hs.2.2.1 hs.2.2.2.2.1
    refine ⟨hih.1, ?_, hih.2.2.1, ?_, ?_⟩
    · rw [hih.2.1, hs.2.1]
    · rw [hih.2.2.2.1, hs.2.2.2.1]
    · rw [hih.2.2.2.2, hs.2.2.2.2.2]

/-- C5: `beginClip(rule)` stores `firstCmdID` equal to the number of clip
commands at that moment with `numCmds` reset to 0; the matching `endClip`
commits `numCmds` equal to the clip-command count at that point minus
`firstCmdID` — a non-negative count describing exactly the contiguous run of
clip commands recorded inside the block, the pre-existing stream being left
intact — and `endClip` forces the next draw command to start a new batch. -/
theorem ctxBeginEndClip_commit (ctx : Ctx) (rule : ClipRule) (ms : List (ℕ × ℕ))
    (hrec : ctx.recordClipCommands = false) :
    (step ctx (Op.beginClip rule)).clipState.firstCmdID = ctx.clipCommands.length ∧
    (step ctx (Op.beginClip rule)).clipState.numCmds = 0 ∧
    (step ctx (Op.beginClip rule)).clipState.rule = rule ∧
    (step ctx (Op.beginClip rule)).recordClipCommands = true ∧
    (step ctx (Op.beginClip rule)).forceNewClipCommand = true ∧
    (step (runOps (step ctx (Op.beginClip rule)) (ms.map fun p => Op.clipMesh p.1 p.2))
        Op.endClip).clipState.firstCmdID = ctx.clipCommands.length ∧
    (step (runOps (step ctx (Op.beginClip rule)) (ms.map fun p => Op.clipMesh p.1 p.2))
        Op.endClip).clipState.numCmds
      = (runOps (step ctx (Op.beginClip rule))
          (ms.map fun p => Op.clipMesh p.1 p.2)).clipCommands.length
        - ctx.clipCommands.length ∧
    ctx.clipCommands.length
      ≤ (runOps (step ctx (Op.beginClip rule))
          (ms.map fun p => Op.clipMesh p.1 p.2)).clipCommands.length ∧
    (runOps (step ctx (Op.beginClip rule))
        (ms.map fun p => Op.clipMesh p.1 p.2)).clipCommands.take ctx.clipCommands.length
      = ctx.clipCommands ∧
    (step (runOps (step ctx (Op.beginClip rule)) (ms.map fun p => Op.clipMesh p.1 p.2))
        Op.endClip).clipState.firstCmdID
      + (step (runOps (step ctx (Op.beginClip rule)) (ms.map fun p => Op.clipMesh p.1 p.2))
          Op.endClip).clipState.numCmds
      = (runOps (step ctx (Op.beginClip rule))
          (ms.map fun p => Op.clipMesh p.1 p.2)).clipCommands.length ∧
    (step (runOps (step ctx (Op.beginClip rule)) (ms.map fun p => Op.clipMesh p.1 p.2))
        Op.endClip).forceNewDrawCommand = true ∧
    (step (runOps (step ctx (Op.beginClip rule)) (ms.map fun p => Op.clipMesh p.1 p.2))
        Op.endClip).recordClipCommands = false := by
  have hbegin : step ctx (Op.beginClip rule)
      = { ctx with clipState := ⟨ctx.clipCommands.length, 0, rule⟩,
                   recordClipCommands := true, forceNewClipCommand := true } := by
    simp [step, hrec]
  have hrun := runClipMeshes ctx.clipCommands.length ms (step ctx (Op.beginClip rule))
    (by rw [hbegin]) (by rw [hbegin]) (by rw [hbegin]; exact Or.inl rfl)
  set c2 := runOps (step ctx (Op.beginClip rule)) (ms.map fun p => Op.clipMesh p.1 p.2)
    with hc2
  have hrec2 : c2.recordClipCommands = true := hrun.1
  have hclip2 : c2.clipState = ⟨ctx.clipCommands.length, 0, rule⟩ := by
    rw [hrun.2.1, hbegin]
  have hend : step c2 Op.endClip
      = { c2 with
          clipState := ⟨ctx.clipCommands.length,
            c2.clipCommands.length - ctx.clipCommands.length, rule⟩,
          recordClipCommands := false, forceNewDrawCommand := true } := by
    rw [step, hrec2]
    simp [hclip2]
  have hlen := hrun.2.2.1
  have htake : c2.clipCommands.take ctx.clipCommands.length = ctx.clipCommands := by
    rw [hrun.2.2.2.1, hbegin]
    exact List.take_length ctx.clipCommands
  refine ⟨by rw [hbegin], by rw [hbegin], by rw [hbegin], by rw [hbegin], by rw [hbegin],
    by rw [hend], by rw [hend], hlen, htake, ?_, by rw [hend], by rw [hend]⟩
  rw [hend]
  simp
  omega

/-- Witness for `ctxBeginEndClip_commit` on a fresh frame with two clip
meshes recorded inside the block. -/
theorem ctxBeginEndClip_commit_witness :
    (initCtx ⟨0, 0, 100, 100⟩ 10).recordClipCommands = false ∧
    (step (initCtx ⟨0, 0, 100, 100⟩ 10) (Op.beginClip ClipRule.rIn)).clipState.firstCmdID = 0 ∧
    (step (runOps (step (initCtx ⟨0, 0, 100, 100⟩ 10) (Op.beginClip ClipRule.rIn))
        ([((3 : ℕ), (3 : ℕ)), (4, 6)].map fun p => Op.clipMesh p.1 p.2))
        Op.endClip).clipState.numCmds
      = (runOps (step (initCtx ⟨0, 0, 100, 100⟩ 10) (Op.beginClip ClipRule.rIn))
          ([((3 : ℕ), (3 : ℕ)), (4, 6)].map fun p => Op.clipMesh p.1 p.2)).clipCommands.length ∧
    (step (runOps (step (initCtx ⟨0, 0, 100, 100⟩ 10) (Op.beginClip ClipRule.rIn))
        ([((3 : ℕ), (3 : ℕ)), (4, 6)].map fun p => Op.clipMesh p.1 p.2))
        Op.endClip).forceNewDrawCommand = true := by
  have h := ctxBeginEndClip_commit (initCtx ⟨0, 0, 100, 100⟩ 10) ClipRule.rIn [(3, 3), (4, 6)] rfl
  exact ⟨rfl, by simpa [initCtx] using h.1, by simpa [initCtx] using h.2.2.2.2.2.2.1,
    h.2.2.2.2.2.2.2.2.2.2.1⟩

/-- Helper for C1: a mesh submission outside a clip block preserves the
reachable-state invariant. -/
theorem createDrawCommandMesh_inv (ctx : Ctx) (type : DrawType) (handle nv ni : ℕ)
    (hinv : CtxInv ctx) :
    CtxInv (createDrawCommandMesh ctx type handle nv ni) := by
  obtain ⟨h1, h2, h3⟩ := hinv
  rw [createDrawCommandMesh, allocDrawCommand, allocVertices]
  by_cases hroll : ctx.maxVBVertices < ctx.vbCounts.getLastD 0 + nv
  · simp only [hroll, if_true, Bool.not_true, Bool.false_and, Bool.false_eq_true, if_false]
    refine ⟨by simp, by simpa using h2, ?_⟩
    intro _ _ prev hprev
    simp only [mapLast_concat, List.getLast?_concat, Option.some_inj] at hprev
    subst hprev
    refine ⟨?_, ?_, ?_⟩ <;> simp [bumpCounts, currentScissor, castRect]
  · simp only [hroll, if_false]
    by_cases hf : ctx.forceNewDrawCommand
    · simp only [hf, Bool.not_true, Bool.false_and, Bool.false_eq_true, if_false]
      refine ⟨by simp [setLast_ne_nil], by simpa using h2, ?_⟩
      intro _ _ prev hprev
      simp only [mapLast_concat, List.getLast?_concat, Option.some_inj] at hprev
      subst hprev
      refine ⟨?_, ?_, ?_⟩ <;>
        simp [bumpCounts, currentScissor, castRect, setLast_length _ _ h1]
    · have hf2 : ctx.forceNewDrawCommand = false := by simpa using hf
      cases hlast : ctx.drawCommands.getLast? with
      | none =>
        simp only [hf2, Bool.not_false, Bool.true_and, hlast, Bool.false_eq_true, if_false]
        refine ⟨by simp [setLast_ne_nil], by simpa using h2, ?_⟩
        intro _ _ prev hprev
        simp only [mapLast_concat, List.getLast?_concat, Option.some_inj] at hprev
        subst hprev
        refine ⟨?_, ?_, ?_⟩ <;>
          simp [bumpCounts, currentScissor, castRect, setLast_length _ _ h1]
      | some prev0 =>
        by_cases htype : prev0.type = type
        · by_cases hhdl : prev0.handleID = handle
          · -- merge with the previous draw command
            simp only [hf2, Bool.not_false, Bool.true_and, hlast, htype, hhdl,
              decide_True, Bool.and_self, if_true]
            refine ⟨by simp [setLast_ne_nil], by simpa using h2, ?_⟩
            intro hr hfd prev hprev
            have hm := h3 hr hf2 prev0 hlast
            simp only [mapLast_getLast?, hlast] at hprev
            have hprev2 : prev = bumpCounts nv ni prev0 := by
              have hp : some (bumpCounts nv ni prev0) = some prev := hprev
              exact (Option.some_inj.mp hp).symm
            subst hprev2
            refine ⟨?_, ?_, ?_⟩ <;>
              simp [bumpCounts, currentScissor, castRect, setLast_length _ _ h1,
                hm.1, hm.2.1, hm.2.2]
          · simp only [hf2, Bool.not_false, Bool.true_and, hlast, hhdl,
              decide_False, Bool.and_false, Bool.false_eq_true, if_false]
            refine ⟨by simp [setLast_ne_nil], by simpa using h2, ?_⟩
            intro _ _ prev hprev
            simp only [mapLast_concat, List.getLast?_concat, Option.some_inj] at hprev
            subst hprev
            refine ⟨?_, ?_, ?_⟩ <;>
              simp [bumpCounts, currentScissor, castRect, setLast_length _ _ h1]
        · simp only [hf2, Bool.not_false, Bool.true_and, hlast, htype,
            decide_False, Bool.false_and, Bool.false_eq_true, if_false]
          refine ⟨by simp [setLast_ne_nil], by simpa using h2, ?_⟩
          intro _ _ prev hprev
          simp only [mapLast_concat, List.getLast?_concat, Option.some_inj] at hprev
          subst hprev
          refine ⟨?_, ?_, ?_⟩ <;>
            simp [bumpCounts, currentScissor, castRect, setLast_length _ _ h1]

/-- Helper for C1: a clip-mesh submission preserves the invariant. -/
theorem createClipCommandMesh_inv (ctx : Ctx) (nv ni : ℕ) (hinv : CtxInv ctx) :
    CtxInv (createClipCommandMesh ctx nv ni) := by
  obtain ⟨h1, h2, h3⟩ := hinv
  rw [createClipCommandMesh, allocClipCommand, allocVertices]
  by_cases hroll : ctx.maxVBVertices < ctx.vbCounts.getLastD 0 + nv
  · simp only [hroll, if_true, Bool.not_true, Bool.false_and, Bool.false_eq_true, if_false]
    refine ⟨by simp, by simpa using h2, ?_⟩
    intro _ hfd
    simp at hfd
  · simp only [hroll, if_false]
    by_cases hf : ctx.forceNewClipCommand
    · simp only [hf, Bool.not_true, Bool.false_and, Bool.false_eq_true, if_false]
      refine ⟨by simp [setLast_ne_nil], by simpa using h2, ?_⟩
      intro hr hfd prev hprev
      have hm := h3 hr hfd prev hprev
      refine ⟨?_, ?_, ?_⟩ <;>
        simp [currentScissor, castRect, setLast_length _ _ h1, hm.1, hm.2.1, hm.2.2]
    · have hf2 : ctx.forceNewClipCommand = false := by simpa using hf
      by_cases hie : ctx.clipCommands.isEmpty
      · simp only [hf2, Bool.not_false, Bool.true_and, hie, Bool.not_true,
          Bool.false_eq_true, if_false]
        refine ⟨by simp [setLast_ne_nil], by simpa using h2, ?_⟩
        intro hr hfd prev hprev
        have hm := h3 hr hfd prev hprev
        refine ⟨?_, ?_, ?_⟩ <;>
          simp [currentScissor, castRect, setLast_length _ _ h1, hm.1, hm.2.1, hm.2.2]
      · have hie2 : ctx.clipCommands.isEmpty = false := by simpa using hie
        simp only [hf2, Bool.not_false, Bool.true_and, hie2, if_true]
        refine ⟨by simp [setLast_ne_nil], by simpa using h2, ?_⟩
        intro hr hfd prev hprev
        have hm := h3 hr hfd prev hprev
        refine ⟨?_, ?_, ?_⟩ <;>
          simp [currentScissor, castRect, setLast_length _ _ h1, hm.1, hm.2.1, hm.2.2]

/-- Helper for C1: every operation of the assembler machine preserves the
invariant. -/
theorem step_preserves_inv (ctx : Ctx) (op : Op) (hinv : CtxInv ctx) :
    CtxInv (step ctx op) := by
  obtain ⟨h1, h2, h3⟩ := hinv
  cases op with
  | draw type handle nv ni =>
    by_cases hrec : ctx.recordClipCommands
    · simpa [step, hrec] using ⟨h1, h2, h3⟩
    · have hrec2 : ctx.recordClipCommands = false := by simpa using hrec
      rw [show step ctx (Op.draw type handle nv ni) = createDrawCommandMesh ctx type handle nv ni
        from by simp [step, hrec2]]
      exact createDrawCommandMesh_inv ctx type handle nv ni ⟨h1, h2, h3⟩
  | clipMesh nv ni =>
    by_cases hrec : ctx.recordClipCommands
    · rw [show step ctx (Op.clipMesh nv ni) = createClipCommandMesh ctx nv ni
        from by simp [step, hrec]]
      exact createClipCommandMesh_inv ctx nv ni ⟨h1, h2, h3⟩
    · simpa [step, hrec] using ⟨h1, h2, h3⟩
  | beginClip rule =>
    by_cases hrec : ctx.recordClipCommands
    · simpa [step, hrec] using ⟨h1, h2, h3⟩
    · have hrec2 : ctx.recordClipCommands = false := by simpa using hrec
      refine ⟨by simpa [step, hrec2] using h1, by simpa [step, hrec2] using h2, ?_⟩
      intro hr
      simp [step, hrec2] at hr
  | endClip =>
    by_cases hrec : ctx.recordClipCommands
    · refine ⟨by simpa [step, hrec] using h1, by simpa [step, hrec] using h2, ?_⟩
      intro _ hfd
      simp [step, hrec] at hfd
    · simpa [step, hrec] using ⟨h1, h2, h3⟩
  | resetClip =>
    by_cases hrec : ctx.recordClipCommands
    · simpa [step, hrec] using ⟨h1, h2, h3⟩
    · have hrec2 : ctx.recordClipCommands = false := by simpa using hrec
      by_cases hcs : ctx.clipState.firstCmdID ≠ invalidCmdID
      · refine ⟨by simpa [step, hrec2, hcs] using h1, by simpa [step, hrec2, hcs] using h2, ?_⟩
        intro _ hfd
        simp [step, hrec2, hcs] at hfd
      · simpa [step, hrec2, hcs] using ⟨h1, h2, h3⟩
  | scissorChange r =>
    refine ⟨by simpa [step] using h1, by simp [step], ?_⟩
    intro _ hfd
    simp [step] at hfd
  | pushState =>
    refine ⟨by simpa [step] using h1, by simp [step], ?_⟩
    intro hr hfd prev hprev
    simp only [step] at hprev hr hfd ⊢
    have hm := h3 hr hfd prev hprev
    refine ⟨hm.1, ?_, hm.2.2⟩
    rw [hm.2.1]
    simp [currentScissor, List.getLastD_concat]
  | popState =>
    by_cases hlen : ctx.scissorStack.length ≤ 1
    · simpa [step, hlen] using ⟨h1, h2, h3⟩
    · have hne : ctx.scissorStack.dropLast ≠ [] := by
        intro h0
        have hlc := congrArg List.length h0
        simp [List.length_dropLast] at hlc
        omega
      cases hlast : ctx.drawCommands.getLast? with
      | none =>
        have hstep : step ctx Op.popState
            = { ctx with scissorStack := ctx.scissorStack.dropLast } := by
          simp [step, hlen, hlast]
        rw [hstep]
        refine ⟨h1, hne, ?_⟩
        intro hr hfd prev hprev
        have hprev2 : ctx.drawCommands.getLast? = some prev := hprev
        rw [hprev2] at hlast
        cases hlast
      | some lastCmd =>
        by_cases hsc : lastCmd.scissorRect
            ≠ castRect (ctx.scissorStack.dropLast.getLastD ⟨0, 0, 0, 0⟩)
        · have hstep : step ctx Op.popState
              = { ctx with scissorStack := ctx.scissorStack.dropLast,
                           forceNewDrawCommand := true, forceNewClipCommand := true } := by
            simp only [List.getLastD_eq_getLast?] at hsc
            simp [step, hlen, hlast, hsc]
          rw [hstep]
          refine ⟨h1, hne, ?_⟩
          intro _ hfd
          simp at hfd
        · have hsc2 : lastCmd.scissorRect
              = castRect (ctx.scissorStack.dropLast.getLastD ⟨0, 0, 0, 0⟩) := by
            simpa using hsc
          have hstep : step ctx Op.popState
              = { ctx with scissorStack := ctx.scissorStack.dropLast } := by
            simp [step, hlen, hlast, hsc2]
          rw [hstep]
          refine ⟨h1, hne, ?_⟩
          intro hr hfd prev hprev
          have hprev2 : ctx.drawCommands.getLast? = some prev := hprev
          have hr2 : ctx.recordClipCommands = false := hr
          have hfd2 : ctx.forceNewDrawCommand = false := hfd
          have hm := h3 hr2 hfd2 prev hprev2
          have hpl : prev = lastCmd := by
            rw [hprev2] at hlast
            exact Option.some_inj.mp hlast
          refine ⟨hm.1, ?_, hm.2.2⟩
          rw [hpl, hsc2]
          simp [currentScissor]

/-- Helper for C1: the invariant holds after `begin` and any legal operation
sequence. -/
theorem runOps_inv_gen : ∀ (ops : List Op) (ctx : Ctx), CtxInv ctx → CtxInv (runOps ctx ops) := by
  intro ops
  induction ops with
  | nil => intro ctx h; exact h
  | cons op rest ih =>
    intro ctx h
    rw [runOps, List.foldl_cons]
    exact ih (step ctx op) (step_preserves_inv ctx op h)

/-- Helper for C1: the invariant holds after `begin` and any operation
sequence. -/
theorem runOps_inv (canvas : Rect) (maxVB : ℕ) (ops : List Op) :
    CtxInv (runOps (initCtx canvas maxVB) ops) := by
  apply runOps_inv_gen
  refine ⟨by simp [initCtx], by simp [initCtx], ?_⟩
  intro _ hfd
  simp [initCtx] at hfd

/-- Helper for C1: at any state satisfying the invariant, `allocDrawCommand`
merges exactly into a previous command agreeing on vertex buffer, type,
handle, scissor snapshot and clip state; otherwise it pushes a fresh
zero-count command copying the current scissor and clip state. -/
theorem allocDrawCommand_spec (ctx : Ctx) (type : DrawType) (handle nv ni : ℕ)
    (hinv : CtxInv ctx) (hrec : ctx.recordClipCommands = false) :
    ((allocDrawCommand ctx nv ni type handle).merged = true →
       ctx.forceNewDrawCommand = false ∧
       ∃ prev, ctx.drawCommands.getLast? = some prev ∧
         prev.type = type ∧ prev.handleID = handle ∧
         prev.vertexBufferID = (allocDrawCommand ctx nv ni type handle).vbID ∧
         prev.scissorRect = castRect (currentScissor ctx) ∧
         prev.clipState = ctx.clipState ∧
         (allocDrawCommand ctx nv ni type handle).ctx.drawCommands = ctx.drawCommands) ∧
    ((allocDrawCommand ctx nv ni type handle).merged = false →
       (allocDrawCommand ctx nv ni type handle).ctx.drawCommands
         = ctx.drawCommands ++
           [{ vertexBufferID := (allocDrawCommand ctx nv ni type handle).vbID,
              firstVertexID := (allocDrawCommand ctx nv ni type handle).firstVertexID,
              firstIndexID := (allocDrawCommand ctx nv ni type handle).firstIndexID,
              numVertices := 0, numIndices := 0, type := type, handleID := handle,
              scissorRect := castRect (currentScissor ctx),
              clipState := ctx.clipState }]) := by
  obtain ⟨h1, h2, h3⟩ := hinv
  by_cases hroll : ctx.maxVBVertices < ctx.vbCounts.getLast?.getD 0 + nv
  · have hq : allocDrawCommand ctx nv ni type handle
        = ⟨{ ctx with
             vbCounts := ctx.vbCounts ++ [nv],
             forceNewDrawCommand := false,
             forceNewClipCommand := true,
             indexCount := ctx.indexCount + ni,
             drawCommands := ctx.drawCommands ++
               [⟨ctx.vbCounts.length, 0, ctx.indexCount, 0, 0, type, handle,
                 castRect (currentScissor ctx), ctx.clipState⟩] },
           false, ctx.vbCounts.length, 0, ctx.indexCount⟩ := by
      simp [allocDrawCommand, allocVertices, hroll, currentScissor]
    rw [hq]
    exact ⟨fun hcon => Bool.noConfusion hcon, fun _ => rfl⟩
  · by_cases hf : ctx.forceNewDrawCommand
    · have hq : allocDrawCommand ctx nv ni type handle
          = ⟨{ ctx with
               vbCounts := setLast ctx.vbCounts (ctx.vbCounts.getLastD 0 + nv),
               forceNewDrawCommand := false,
               indexCount := ctx.indexCount + ni,
               drawCommands := ctx.drawCommands ++
                 [⟨ctx.vbCounts.length - 1, ctx.vbCounts.getLastD 0, ctx.indexCount, 0, 0,
                   type, handle, castRect (currentScissor ctx), ctx.clipState⟩] },
             false, ctx.vbCounts.length - 1, ctx.vbCounts.getLastD 0, ctx.indexCount⟩ := by
        simp [allocDrawCommand, allocVertices, hroll, hf, currentScissor]
      rw [hq]
      exact ⟨fun hcon => Bool.noConfusion hcon, fun _ => rfl⟩
    · have hf2 : ctx.forceNewDrawCommand = false := by simpa using hf
      cases hlast : ctx.drawCommands.getLast? with
      | none =>
        have hq : allocDrawCommand ctx nv ni type handle
            = ⟨{ ctx with
                 vbCounts := setLast ctx.vbCounts (ctx.vbCounts.getLastD 0 + nv),
                 forceNewDrawCommand := false,
                 indexCount := ctx.indexCount + ni,
                 drawCommands := ctx.drawCommands ++
                   [⟨ctx.vbCounts.length - 1, ctx.vbCounts.getLastD 0, ctx.indexCount, 0, 0,
                     type, handle, castRect (currentScissor ctx), ctx.clipState⟩] },
               false, ctx.vbCounts.length - 1, ctx.vbCounts.getLastD 0, ctx.indexCount⟩ := by
          simp [allocDrawCommand, allocVertices, hroll, hf2, hlast, currentScissor]
        rw [hq]
        exact ⟨fun hcon => Bool.noConfusion hcon, fun _ => rfl⟩
      | some prev0 =>
        by_cases htype : prev0.type = type
        · by_cases hhdl : prev0.handleID = handle
          · have hq : allocDrawCommand ctx nv ni type handle
                = ⟨{ ctx with
                     vbCounts := setLast ctx.vbCounts (ctx.vbCounts.getLastD 0 + nv),
                     indexCount := ctx.indexCount + ni },
                   true, ctx.vbCounts.length - 1, ctx.vbCounts.getLastD 0, ctx.indexCount⟩ := by
              simp [allocDrawCommand, allocVertices, hroll, hf2, hlast, htype, hhdl]
            have hm := h3 hrec hf2 prev0 hlast
            rw [hq]
            refine ⟨fun _ => ⟨hf2, prev0, rfl, htype, hhdl, hm.1, hm.2.1, hm.2.2, rfl⟩,
              fun hcon => Bool.noConfusion hcon⟩
          · have hq : allocDrawCommand ctx nv ni type handle
                = ⟨{ ctx with
                     vbCounts := setLast ctx.vbCounts (ctx.vbCounts.getLastD 0 + nv),
                     forceNewDrawCommand := false,
                     indexCount := ctx.indexCount + ni,
                     drawCommands := ctx.drawCommands ++
                       [⟨ctx.vbCounts.length - 1, ctx.vbCounts.getLastD 0, ctx.indexCount, 0, 0,
                         type, handle, castRect (currentScissor ctx), ctx.clipState⟩] },
                   false, ctx.vbCounts.length - 1, ctx.vbCounts.getLastD 0, ctx.indexCount⟩ := by
              simp [allocDrawCommand, allocVertices, hroll, hf2, hlast, hhdl, currentScissor]
            rw [hq]
            exact ⟨fun hcon => Bool.noConfusion hcon, fun _ => rfl⟩
        · have hq : allocDrawCommand ctx nv ni type handle
              = ⟨{ ctx with
                   vbCounts := setLast ctx.vbCounts (ctx.vbCounts.getLastD 0 + nv),
                   forceNewDrawCommand := false,
                   indexCount := ctx.indexCount + ni,
                   drawCommands := ctx.drawCommands ++
                     [⟨ctx.vbCounts.length - 1, ctx.vbCounts.getLastD 0, ctx.indexCount, 0, 0,
                       type, handle, castRect (currentScissor ctx), ctx.clipState⟩] },
                 false, ctx.vbCounts.length - 1, ctx.vbCounts.getLastD 0, ctx.indexCount⟩ := by
            simp [allocDrawCommand, allocVertices, hroll, hf2, hlast, htype, currentScissor]
          rw [hq]
          exact ⟨fun hcon => Bool.noConfusion hcon, fun _ => rfl⟩

/-- C1: after `begin` and any operation sequence, `allocDrawCommand` returns
the previous draw command (merging the new mesh into it) only when
`forceNewDrawCommand` is clear and the previous command's vertex buffer id,
type, paint handle, scissor rect and clip state all equal those of the new
request; in every other case it pushes a fresh draw command with zero
vertex/index counts that copies the current scissor and `ClipState`. -/
theorem allocDrawCommand_mergeOrFresh (canvas : Rect) (maxVB : ℕ) (ops : List Op)
    (type : DrawType) (handle nv ni : ℕ)
    (hrec : (runOps (initCtx canvas maxVB) ops).recordClipCommands = false) :
    ((allocDrawCommand (runOps (initCtx canvas maxVB) ops) nv ni type handle).merged = true →
       (runOps (initCtx canvas maxVB) ops).forceNewDrawCommand = false ∧
       ∃ prev, (runOps (initCtx canvas maxVB) ops).drawCommands.getLast? = some prev ∧
         prev.type = type ∧ prev.handleID = handle ∧
         prev.vertexBufferID
           = (allocDrawCommand (runOps (initCtx canvas maxVB) ops) nv ni type handle).vbID ∧
         prev.scissorRect = castRect (currentScissor (runOps (initCtx canvas maxVB) ops)) ∧
         prev.clipState = (runOps (initCtx canvas maxVB) ops).clipState ∧
         (allocDrawCommand (runOps (initCtx canvas maxVB) ops) nv ni type handle).ctx.drawCommands
           = (runOps (initCtx canvas maxVB) ops).drawCommands) ∧
    ((allocDrawCommand (runOps (initCtx canvas maxVB) ops) nv ni type handle).merged = false →
       (allocDrawCommand (runOps (initCtx canvas maxVB) ops) nv ni type handle).ctx.drawCommands
         = (runOps (initCtx canvas maxVB) ops).drawCommands ++
           [{ vertexBufferID
                := (allocDrawCommand (runOps (initCtx canvas maxVB) ops) nv ni type handle).vbID,
              firstVertexID
                := (allocDrawCommand (runOps (initCtx canvas maxVB) ops) nv ni
                    type handle).firstVertexID,
              firstIndexID
                := (allocDrawCommand (runOps (initCtx canvas maxVB) ops) nv ni
                    type handle).firstIndexID,
              numVertices := 0, numIndices := 0, type := type, handleID := handle,
              scissorRect := castRect (currentScissor (runOps (initCtx canvas maxVB) ops)),
              clipState := (runOps (initCtx canvas maxVB) ops).clipState }]) :=
  allocDrawCommand_spec (runOps (initCtx canvas maxVB) ops) type handle nv ni
    (runOps_inv canvas maxVB ops) hrec

/-- Witness for `allocDrawCommand_mergeOrFresh`: one draw already in the
frame, then a compatible request merges. -/
theorem allocDrawCommand_mergeOrFresh_witness :
    ((runOps (initCtx ⟨0, 0, 100, 100⟩ 100)
        [Op.draw DrawType.textured 3 4 6]).recordClipCommands = false) ∧
    ((allocDrawCommand (runOps (initCtx ⟨0, 0, 100, 100⟩ 100) [Op.draw DrawType.textured 3 4 6]) 5 6 DrawType.textured 3).merged = true →
       (runOps (initCtx ⟨0, 0, 100, 100⟩ 100) [Op.draw DrawType.textured 3 4 6]).forceNewDrawCommand = false ∧
       ∃ prev, (runOps (initCtx ⟨0, 0, 100, 100⟩ 100) [Op.draw DrawType.textured 3 4 6]).drawCommands.getLast? = some prev ∧
         prev.type = DrawType.textured ∧ prev.handleID = 3 ∧
         prev.vertexBufferID
           = (allocDrawCommand (runOps (initCtx ⟨0, 0, 100, 100⟩ 100) [Op.draw DrawType.textured 3 4 6]) 5 6 DrawType.textured 3).vbID ∧
         prev.scissorRect = castRect (currentScissor (runOps (initCtx ⟨0, 0, 100, 100⟩ 100) [Op.draw DrawType.textured 3 4 6])) ∧
         prev.clipState = (runOps (initCtx ⟨0, 0, 100, 100⟩ 100) [Op.draw DrawType.textured 3 4 6]).clipState ∧
         (allocDrawCommand (runOps (initCtx ⟨0, 0, 100, 100⟩ 100) [Op.draw DrawType.textured 3 4 6]) 5 6 DrawType.textured 3).ctx.drawCommands
           = (runOps (initCtx ⟨0, 0, 100, 100⟩ 100) [Op.draw DrawType.textured 3 4 6]).drawCommands) ∧
    ((allocDrawCommand (runOps (initCtx ⟨0, 0, 100, 100⟩ 100) [Op.draw DrawType.textured 3 4 6]) 5 6 DrawType.textured 3).merged = false →
       (allocDrawCommand (runOps (initCtx ⟨0, 0, 100, 100⟩ 100) [Op.draw DrawType.textured 3 4 6]) 5 6 DrawType.textured 3).ctx.drawCommands
         = (runOps (initCtx ⟨0, 0, 100, 100⟩ 100) [Op.draw DrawType.textured 3 4 6]).drawCommands ++
           [{ vertexBufferID
                := (allocDrawCommand (runOps (initCtx ⟨0, 0, 100, 100⟩ 100) [Op.draw DrawType.textured 3 4 6]) 5 6 DrawType.textured 3).vbID,
              firstVertexID
                := (allocDrawCommand (runOps (initCtx ⟨0, 0, 100, 100⟩ 100) [Op.draw DrawType.textured 3 4 6]) 5 6
                    DrawType.textured 3).firstVertexID,
              firstIndexID
                := (allocDrawCommand (runOps (initCtx ⟨0, 0, 100, 100⟩ 100) [Op.draw DrawType.textured 3 4 6]) 5 6
                    DrawType.textured 3).firstIndexID,
              numVertices := 0, numIndices := 0, type := DrawType.textured, handleID := 3,
              scissorRect := castRect (currentScissor (runOps (initCtx ⟨0, 0, 100, 100⟩ 100) [Op.draw DrawType.textured 3 4 6])),
              clipState := (runOps (initCtx ⟨0, 0, 100, 100⟩ 100) [Op.draw DrawType.textured 3 4 6]).clipState }]) :=
  ⟨rfl, allocDrawCommand_mergeOrFresh ⟨0, 0, 100, 100⟩ 100
    [Op.draw DrawType.textured 3 4 6] DrawType.textured 3 5 6 rfl⟩

/-- Forcing a color's own alpha back through global alpha `1` and the byte cast
is the identity (the fill path under a shape cache, vg.cpp:2211-2213 with
`globalAlpha == 1`). -/
theorem colorSetAlpha_self (c : Color) :
    colorSetAlpha c (toByte (1 * (colorGetAlpha c : ℚ))) = c := by
  have h : toByte ((colorGetAlpha c : ℚ)) = c.a := by
    apply Fin.ext
    simp [toByte, colorGetAlpha, Nat.mod_eq_of_lt c.a.isLt]
  calc colorSetAlpha c (toByte (1 * (colorGetAlpha c : ℚ)))
      = colorSetAlpha c c.a := by rw [one_mul, h]
    _ = c := rfl

/-- The affine inverse is a right inverse on points whenever the determinant is
nonzero. -/
theorem applyMtx_invert (m : Mtx) (h : mtxDet m ≠ 0) (p : Pt) :
    applyMtx m (applyMtx (mtxInvert m) p) = p := by
  obtain ⟨x, y⟩ := p
  have hd : m.a * m.d - m.b * m.c ≠ 0 := h
  simp only [applyMtx, mtxInvert, mtxDet, transformPos2D]
  refine Prod.ext ?_ ?_ <;> field_simp <;> ring

/-- `transformPath` never touches the current transform. -/
theorem transformPathM_mtx (st : C2State) : (transformPathM st).2.mtx = st.mtx := by
  unfold transformPathM
  cases st.pathXf <;> rfl

/-- `transformsOf` skips `beginPath`. -/
theorem transformsOf_beginPath (rest : List CLCmd) :
    transformsOf (CLCmd.beginPath :: rest) = transformsOf rest := rfl

/-- `transformsOf` skips `addSubPath`. -/
theorem transformsOf_addSubPath (pts : List Pt) (rest : List CLCmd) :
    transformsOf (CLCmd.addSubPath pts :: rest) = transformsOf rest := rfl

/-- `transformsOf` skips `fillColor`. -/
theorem transformsOf_fillColor (aa : Bool) (c : Color) (rest : List CLCmd) :
    transformsOf (CLCmd.fillColor aa c :: rest) = transformsOf rest := rfl

/-- `transformsOf` collects `setTransform`. -/
theorem transformsOf_setTransform (m : Mtx) (rest : List CLCmd) :
    transformsOf (CLCmd.setTransform m :: rest) = m :: transformsOf rest := rfl

/-- Replaying one cached color fill at the transform it was recorded under
reproduces exactly the mesh submissions of the recording, provided the stroker
never emits a one-vertex mesh. -/
theorem replay_buildFillColor (S : StrokerModel)
    (hmesh : ∀ b pts col, (S.convexFill b pts col).pos.length ≠ 1)
    (st : C2State) (aa : Bool) (color : Color) (h : mtxDet st.mtx ≠ 0) :
    replayFillColor S st.mtx (buildFillColor S st aa color).2.1 color
      = (buildFillColor S st aa color).2.2 := by
  have hcol := colorSetAlpha_self color
  have htp := transformPathM_mtx st
  simp only [buildFillColor, replayFillColor, hcol, htp, List.map_map]
  refine List.map_congr_left ?_
  intro sp _
  have hlen : (S.convexFill aa sp color).pos.length ≠ 1 := hmesh aa sp color
  have hpos : List.map (applyMtx st.mtx ∘ applyMtx (mtxInvert st.mtx))
      (S.convexFill aa sp color).pos = (S.convexFill aa sp color).pos := by
    conv_rhs => rw [← List.map_id (S.convexFill aa sp color).pos]
    exact List.map_congr_left fun p _ => applyMtx_invert st.mtx h p
  cases hc : (S.convexFill aa sp color).colors with
  | none => simp [Function.comp, cacheMeshOf, meshColorsArg, hc, hpos]
  | some cs => simp [Function.comp, cacheMeshOf, meshColorsArg, hc, hpos, hlen]

/-- Replaying a cache built from a command list, starting at the same
transform, produces exactly the recording's mesh submissions and tracks the
same transform state, provided every transform involved is invertible and the
stroker never emits a one-vertex mesh. -/
theorem replayRun_buildRun (S : StrokerModel)
    (hmesh : ∀ b pts col, (S.convexFill b pts col).pos.length ≠ 1)
    (cmds : List CLCmd) :
    ∀ st1 st2 : C2State, st1.mtx = st2.mtx → mtxDet st1.mtx ≠ 0 →
      (∀ m ∈ transformsOf cmds, mtxDet m ≠ 0) →
      replayRun S st2 (buildRun S st1 cmds).2.1 cmds
        = ({ st2 with mtx := (buildRun S st1 cmds).1.mtx }, (buildRun S st1 cmds).2.2) := by
  induction cmds with
  | nil =>
    intro st1 st2 hmtx _ _
    simp only [buildRun, replayRun, hmtx]
  | cons c rest ih =>
    intro st1 st2 hmtx hdet htr
    cases c with
    | beginPath =>
      simp only [buildRun, replayRun]
      exact ih { st1 with path := [], pathXf := none } st2 hmtx hdet
        (fun m hm => htr m (by rw [transformsOf_beginPath]; exact hm))
    | addSubPath pts =>
      simp only [buildRun, replayRun]
      exact ih { st1 with path := st1.path ++ [pts] } st2 hmtx hdet
        (fun m hm => htr m (by rw [transformsOf_addSubPath]; exact hm))
    | setTransform m =>
      have hm : mtxDet m ≠ 0 :=
        htr m (by rw [transformsOf_setTransform]; exact List.mem_cons_self m _)
      simp only [buildRun, replayRun]
      have := ih { st1 with mtx := m } { st2 with mtx := m } rfl hm
        (fun m' hm' => htr m' (by rw [transformsOf_setTransform]
                                  exact List.mem_cons_of_mem _ hm'))
      simpa using this
    | fillColor aa color =>
      have htpm : (buildFillColor S st1 aa color).1.mtx = st1.mtx := by
        simp only [buildFillColor]
        exact transformPathM_mtx st1
      have hrep : replayFillColor S st2.mtx (buildFillColor S st1 aa color).2.1 color
          = (buildFillColor S st1 aa color).2.2 := by
        rw [← hmtx]
        exact replay_buildFillColor S hmesh st1 aa color hdet
      have ihr := ih (buildFillColor S st1 aa color).1 st2 (htpm.trans hmtx)
        (by rw [htpm]; exact hdet)
        (fun m hm => htr m (by rw [transformsOf_fillColor]; exact hm))
      simp only [buildRun, replayRun]
      rw [hrep, ihr]

/-- C2 (corrected): with the shape cache active, submitting a `Cacheable`
command list twice in a row from a fresh cache at the same state produces the
same sequence of mesh submissions both times — the cache is built keyed to the
entry average scale on the first submission, the second replays the cached
meshes through the current transform, and the context returns to the same
state — and a submission whose cache was keyed to a different average scale
rebuilds it keyed to the new scale.  (The original claim's phrase "the same
sequence of draw commands" is too strong at the `DrawCommand` level: the
second submission's replayed meshes can merge into the last draw command of
the first submission, so the draw-command stream is not duplicated — see the
counterexample.) -/
theorem ctxSubmitCommandList_shapeCache (S : StrokerModel) (cmds : List CLCmd)
    (ctx : CLCtx)
    (hmesh : ∀ b pts col, (S.convexFill b pts col).pos.length ≠ 1)
    (hfresh : ctx.cache = none)
    (hscale : S.avgScaleOf ctx.st.mtx ≠ 0)
    (hdet : mtxDet ctx.st.mtx ≠ 0)
    (htr : ∀ m ∈ transformsOf cmds, mtxDet m ≠ 0) :
    (submitCacheableCL S cmds ctx).1.cache
        = some ⟨S.avgScaleOf ctx.st.mtx, (buildRun S ctx.st cmds).2.1⟩ ∧
    (submitCacheableCL S cmds ctx).2 = (buildRun S ctx.st cmds).2.2 ∧
    (submitCacheableCL S cmds ctx).1.st.mtx = ctx.st.mtx ∧
    (submitCacheableCL S cmds (submitCacheableCL S cmds ctx).1).2
        = (submitCacheableCL S cmds ctx).2 ∧
    (submitCacheableCL S cmds (submitCacheableCL S cmds ctx).1).1
        = (submitCacheableCL S cmds ctx).1 ∧
    (∀ ctx' : CLCtx, ∀ s : ℚ, ∀ ccs : List CachedCommandM,
       ctx'.cache = some ⟨s, ccs⟩ → s ≠ S.avgScaleOf ctx'.st.mtx →
       (submitCacheableCL S cmds ctx').1.cache
           = some ⟨S.avgScaleOf ctx'.st.mtx, (buildRun S ctx'.st cmds).2.1⟩ ∧
       (submitCacheableCL S cmds ctx').2 = (buildRun S ctx'.st cmds).2.2) := by
  have h1 : submitCacheableCL S cmds ctx
      = ({ st := { (buildRun S ctx.st cmds).1 with mtx := ctx.st.mtx },
           cache := some ⟨S.avgScaleOf ctx.st.mtx, (buildRun S ctx.st cmds).2.1⟩ },
         (buildRun S ctx.st cmds).2.2) := by
    simp [submitCacheableCL, hfresh, Ne.symm hscale]
  have hrep := replayRun_buildRun S hmesh cmds ctx.st
    { (buildRun S ctx.st cmds).1 with mtx := ctx.st.mtx } rfl hdet htr
  have h2 : submitCacheableCL S cmds (submitCacheableCL S cmds ctx).1
      = ((submitCacheableCL S cmds ctx).1, (buildRun S ctx.st cmds).2.2) := by
    rw [h1]
    simp [submitCacheableCL, hrep]
  refine ⟨by rw [h1], by rw [h1], by rw [h1], ?_, ?_, ?_⟩
  · rw [h2, h1]
  · rw [h2]
  · intro ctx' s ccs hc hne
    constructor <;> simp [submitCacheableCL, hc, hne]

/-- Witness for `ctxSubmitCommandList_shapeCache`: the concrete cacheable list
`c2Cmds` submitted twice from a fresh cache at the identity transform. -/
theorem ctxSubmitCommandList_shapeCache_witness :
    (submitCacheableCL c2S c2Cmds c2Ctx).1.cache
        = some ⟨c2S.avgScaleOf c2Ctx.st.mtx, (buildRun c2S c2Ctx.st c2Cmds).2.1⟩ ∧
    (submitCacheableCL c2S c2Cmds c2Ctx).2 = (buildRun c2S c2Ctx.st c2Cmds).2.2 ∧
    (submitCacheableCL c2S c2Cmds c2Ctx).1.st.mtx = c2Ctx.st.mtx ∧
    (submitCacheableCL c2S c2Cmds (submitCacheableCL c2S c2Cmds c2Ctx).1).2
        = (submitCacheableCL c2S c2Cmds c2Ctx).2 ∧
    (submitCacheableCL c2S c2Cmds (submitCacheableCL c2S c2Cmds c2Ctx).1).1
        = (submitCacheableCL c2S c2Cmds c2Ctx).1 := by
  have h := ctxSubmitCommandList_shapeCache c2S c2Cmds c2Ctx
    (by intro b pts col; simp [c2S])
    rfl
    (by simp [c2S, c2Ctx])
    (by simp [c2Ctx, mtxDet, mtxIdentity])
    (by intro m hm; simp [c2Cmds, transformsOf] at hm)
  exact ⟨h.1, h.2.1, h.2.2.1, h.2.2.2.1, h.2.2.2.2.1⟩

/-- Counterexample to C2 as stated: the two submissions of `c2Cmds` hand the
assembler identical mesh submissions, yet the first submission appends one
`DrawCommand` while the second appends none — its replayed mesh merges into
the first submission's last draw command (no force-new flag intervenes between
the submissions), so the draw-command sequences of the two playbacks differ. -/
theorem shapeCache_drawCommands_counterexample :
    (submitCacheableCL c2S c2Cmds (submitCacheableCL c2S c2Cmds c2Ctx).1).2
        = (submitCacheableCL c2S c2Cmds c2Ctx).2 ∧
    (applyMeshReqs (initCtx ⟨0, 0, 100, 100⟩ 65536)
        (submitCacheableCL c2S c2Cmds c2Ctx).2).drawCommands.length = 1 ∧
    (applyMeshReqs
        (applyMeshReqs (initCtx ⟨0, 0, 100, 100⟩ 65536)
          (submitCacheableCL c2S c2Cmds c2Ctx).2)
        (submitCacheableCL c2S c2Cmds (submitCacheableCL c2S c2Cmds c2Ctx).1).2).drawCommands.length
      = 1 := by
  refine ⟨?_, ?_, ?_⟩
  all_goals
    norm_num [c2S, c2Cmds, c2Ctx, submitCacheableCL, buildRun, buildFillColor,
      replayRun, replayFillColor, transformPathM, applyMtx, transformPos2D,
      mtxInvert, mtxDet, mtxIdentity, cacheMeshOf, meshColorsArg, colorSetAlpha,
      colorGetAlpha, toByte, applyMeshReqs, createDrawCommandMesh,
      allocDrawCommand, allocVertices, bumpCounts, mapLast, setLast,
      currentScissor, initCtx]
  all_goals decide

end VG
